import Mathlib

/-!
Verification of the location-records service (Go sources: `internal/models`,
`internal/repository`, `internal/handler`) against its specification.

The Go code is shallowly embedded:
* JSON documents (`encoding/json` values) are modeled by the inductive `Json`;
  a Go `map[string]interface{}` is modeled by an association list of fields.
* A raw byte payload handed to `json.Unmarshal` is modeled by `RawInput`:
  either a well-formed document or a `malformed` marker carrying the syntax
  error message (a byte string is malformed independently of the target type).
* Go `float64` fields are modeled by `ℚ`; the comparisons performed by the
  code coincide with rational comparisons on all exactly-representable values.
* Go errors are modeled by `Except String`, carrying the `fmt.Errorf` message
  (`%w` wrapping becomes string concatenation of the prefix and the wrapped
  message).
* DynamoDB is modeled by a list of stored records together with the
  conditional-write and GSI-query semantics used by the repository.
-/

namespace LocationLambda

/-- A JSON document value (model of what `encoding/json` decodes bytes into).
Objects keep their fields as an association list. -/
inductive Json where
  | null
  | bool (b : Bool)
  | num (q : ℚ)
  | str (s : String)
  | arr (elems : List Json)
  | obj (fields : List (String × Json))

/-- Field lookup in a JSON object. `encoding/json` processes duplicate keys
in order with later values overwriting earlier ones, so the last binding
wins. -/
def lookupField (fields : List (String × Json)) (key : String) : Option Json :=
  ((fields.reverse).find? (fun p => p.1 == key)).map (·.2)

/-- Go map assignment `m[k] = v` on the association-list model of a
`map[string]interface{}`: replace the binding if the key is present,
otherwise append it. -/
def setKey (fields : List (String × Json)) (key : String) (v : Json) :
    List (String × Json) :=
  if fields.any (fun p => p.1 == key) then
    fields.map (fun p => if p.1 == key then (key, v) else p)
  else
    fields ++ [(key, v)]

/-- Left-pad a natural number with zeros to six digits (fraction part of
Go `%f` output). -/
def natPad6 (n : ℕ) : String :=
  let s := toString n
  String.mk (List.replicate (6 - s.length) '0') ++ s

/-- Model of Go `fmt`'s `%f` verb (six fractional digits) on the rational
model of a `float64`. Rounding ties are taken away from zero; the validation
messages proved about below only format exactly-representable values, where
this agrees with Go. -/
def goFmtF (q : ℚ) : String :=
  let a : ℚ := |q|
  let scaled : ℕ := (a.num.toNat * 1000000 + a.den / 2) / a.den
  (if q < 0 then "-" else "") ++ toString (scaled / 1000000) ++ "." ++
    natPad6 (scaled % 1000000)

/-! ## `internal/models`: the location variant model -/

/-- `models.LocationType` is a named string type in Go. -/
abbrev LocationType := String

/-- `models.LocationTypeAddress`. -/
def LocationTypeAddress : LocationType := "address"

/-- `models.LocationTypeCoordinates`. -/
def LocationTypeCoordinates : LocationType := "coordinates"

/-- `models.LocationTypeShop`. -/
def LocationTypeShop : LocationType := "shop"

/-- `models.Address`. Optional string fields use the Go zero value `""` for
absence, exactly as the Go struct does. -/
structure Address where
  streetAddress : String
  streetAddress2 : String
  city : String
  stateProvince : String
  postalCode : String
  country : String
  deriving DecidableEq

/-- `models.Address.Validate`: `none` models a nil error, `some msg` models
`errors.New(msg)`. -/
def Address.Validate (a : Address) : Option String :=
  if a.streetAddress = "" then some "streetAddress is required"
  else if a.city = "" then some "city is required"
  else if a.postalCode = "" then some "postalCode is required"
  else if a.country = "" then some "country is required"
  else if a.country.length ≠ 2 then
    some "country must be a 2-character ISO 3166-1 alpha-2 code"
  else none

/-- `models.Coordinates`. `Altitude` and `Accuracy` are `*float64` in Go; the
nil pointer is modeled by `none`. -/
structure Coordinates where
  latitude : ℚ
  longitude : ℚ
  altitude : Option ℚ
  accuracy : Option ℚ
  deriving DecidableEq

/-- `models.Coordinates.Validate`. -/
def Coordinates.Validate (c : Coordinates) : Option String :=
  if c.latitude < -90 ∨ 90 < c.latitude then
    some ("latitude must be between -90 and 90, got " ++ goFmtF c.latitude)
  else if c.longitude < -180 ∨ 180 < c.longitude then
    some ("longitude must be between -180 and 180, got " ++ goFmtF c.longitude)
  else
    match c.accuracy with
    | some a =>
        if a < 0 then some ("accuracy must be non-negative, got " ++ goFmtF a)
        else none
    | none => none

/-- `models.Shop` (embeds an `Address` under the JSON key `address`). -/
structure Shop where
  name : String
  contactID : String
  address : Address
  deriving DecidableEq

/-- `models.Shop.Validate`. -/
def Shop.Validate (s : Shop) : Option String :=
  if s.name = "" then some "name is required"
  else if s.contactID = "" then some "contactId is required"
  else s.address.Validate

/-- `models.LocationBase`: the fields shared by every variant.
`ExtendedAttributes` is a `map[string]interface{}` in Go; `[]` models the
nil (or empty) map, which behaves identically under `omitempty`. -/
structure LocationBase where
  accountID : String
  locationType : LocationType
  extendedAttributes : List (String × Json)

/-- `models.AddressLocation` (embeds `LocationBase`). -/
structure AddressLocation extends LocationBase where
  address : Address

/-- `models.CoordinatesLocation` (embeds `LocationBase`). -/
structure CoordinatesLocation extends LocationBase where
  coordinates : Coordinates

/-- `models.ShopLocation` (embeds `LocationBase`). -/
structure ShopLocation extends LocationBase where
  shop : Shop

/-- The Go interface `models.Location` with its closed set of three
implementations, as a sum type. -/
inductive Location where
  | addressLoc (l : AddressLocation)
  | coordinatesLoc (l : CoordinatesLocation)
  | shopLoc (l : ShopLocation)

/-- `Location.GetAccountID` (provided by the embedded `LocationBase`). -/
def Location.GetAccountID : Location → String
  | .addressLoc l => l.accountID
  | .coordinatesLoc l => l.accountID
  | .shopLoc l => l.accountID

/-- `Location.GetLocationType` (provided by the embedded `LocationBase`). -/
def Location.GetLocationType : Location → LocationType
  | .addressLoc l => l.locationType
  | .coordinatesLoc l => l.locationType
  | .shopLoc l => l.locationType

/-- `Location.GetExtendedAttributes` (provided by the embedded
`LocationBase`). -/
def Location.GetExtendedAttributes : Location → List (String × Json)
  | .addressLoc l => l.extendedAttributes
  | .coordinatesLoc l => l.extendedAttributes
  | .shopLoc l => l.extendedAttributes

/-- `models.AddressLocation.Validate`. -/
def AddressLocation.Validate (l : AddressLocation) : Option String :=
  if l.accountID = "" then some "accountId is required"
  else if l.locationType ≠ LocationTypeAddress then
    some ("invalid locationType for AddressLocation: " ++ l.locationType)
  else l.address.Validate

/-- `models.CoordinatesLocation.Validate`. -/
def CoordinatesLocation.Validate (l : CoordinatesLocation) : Option String :=
  if l.accountID = "" then some "accountId is required"
  else if l.locationType ≠ LocationTypeCoordinates then
    some ("invalid locationType for CoordinatesLocation: " ++ l.locationType)
  else l.coordinates.Validate

/-- `models.ShopLocation.Validate`. -/
def ShopLocation.Validate (l : ShopLocation) : Option String :=
  if l.accountID = "" then some "accountId is required"
  else if l.locationType ≠ LocationTypeShop then
    some ("invalid locationType for ShopLocation: " ++ l.locationType)
  else l.shop.Validate

/-- Virtual dispatch of `Validate` through the `Location` interface. -/
def Location.Validate : Location → Option String
  | .addressLoc l => l.Validate
  | .coordinatesLoc l => l.Validate
  | .shopLoc l => l.Validate

/-! ## `encoding/json` decoding into the model structs

Each helper mirrors `json.Unmarshal` semantics for the corresponding Go
field type: a missing field or JSON `null` leaves the zero value, a value of
the wrong JSON kind is an `UnmarshalTypeError`, and unknown fields are
ignored. -/

/-- Decode a Go `string` struct field. -/
def getStringField (fields : List (String × Json)) (key : String) :
    Except String String :=
  match lookupField fields key with
  | none => .ok ""
  | some .null => .ok ""
  | some (.str s) => .ok s
  | some _ => .error ("json: cannot unmarshal value into string field " ++ key)

/-- Decode a Go `float64` struct field. -/
def getNumField (fields : List (String × Json)) (key : String) :
    Except String ℚ :=
  match lookupField fields key with
  | none => .ok 0
  | some .null => .ok 0
  | some (.num q) => .ok q
  | some _ => .error ("json: cannot unmarshal value into float64 field " ++ key)

/-- Decode a Go `*float64` struct field (nil pointer for missing/null). -/
def getOptNumField (fields : List (String × Json)) (key : String) :
    Except String (Option ℚ) :=
  match lookupField fields key with
  | none => .ok none
  | some .null => .ok none
  | some (.num q) => .ok (some q)
  | some _ => .error ("json: cannot unmarshal value into float64 field " ++ key)

/-- The zero value of `models.Address`. -/
def zeroAddress : Address := ⟨"", "", "", "", "", ""⟩

/-- Decode a JSON value into `models.Address`. -/
def decodeAddress (v : Json) : Except String Address :=
  match v with
  | .null => .ok zeroAddress
  | .obj fields => do
      let streetAddress ← getStringField fields "streetAddress"
      let streetAddress2 ← getStringField fields "streetAddress2"
      let city ← getStringField fields "city"
      let stateProvince ← getStringField fields "stateProvince"
      let postalCode ← getStringField fields "postalCode"
      let country ← getStringField fields "country"
      return ⟨streetAddress, streetAddress2, city, stateProvince, postalCode,
        country⟩
  | _ => .error "json: cannot unmarshal value into Address"

/-- Decode an `Address`-typed struct field. -/
def getAddressField (fields : List (String × Json)) (key : String) :
    Except String Address :=
  match lookupField fields key with
  | none => .ok zeroAddress
  | some v => decodeAddress v

/-- Decode a JSON value into `models.Coordinates`. -/
def decodeCoordinates (v : Json) : Except String Coordinates :=
  match v with
  | .null => .ok ⟨0, 0, none, none⟩
  | .obj fields => do
      let latitude ← getNumField fields "latitude"
      let longitude ← getNumField fields "longitude"
      let altitude ← getOptNumField fields "altitude"
      let accuracy ← getOptNumField fields "accuracy"
      return ⟨latitude, longitude, altitude, accuracy⟩
  | _ => .error "json: cannot unmarshal value into Coordinates"

/-- Decode a `Coordinates`-typed struct field. -/
def getCoordinatesField (fields : List (String × Json)) (key : String) :
    Except String Coordinates :=
  match lookupField fields key with
  | none => .ok ⟨0, 0, none, none⟩
  | some v => decodeCoordinates v

/-- Decode a JSON value into `models.Shop`. -/
def decodeShop (v : Json) : Except String Shop :=
  match v with
  | .null => .ok ⟨"", "", zeroAddress⟩
  | .obj fields => do
      let name ← getStringField fields "name"
      let contactID ← getStringField fields "contactId"
      let address ← getAddressField fields "address"
      return ⟨name, contactID, address⟩
  | _ => .error "json: cannot unmarshal value into Shop"

/-- Decode a `Shop`-typed struct field. -/
def getShopField (fields : List (String × Json)) (key : String) :
    Except String Shop :=
  match lookupField fields key with
  | none => .ok ⟨"", "", zeroAddress⟩
  | some v => decodeShop v

/-- Decode the `map[string]interface{}` field `extendedAttributes`. -/
def getExtendedAttributesField (fields : List (String × Json)) :
    Except String (List (String × Json)) :=
  match lookupField fields "extendedAttributes" with
  | none => .ok []
  | some .null => .ok []
  | some (.obj attrs) => .ok attrs
  | some _ => .error "json: cannot unmarshal value into map field extendedAttributes"

/-- Decode the embedded `models.LocationBase` fields (flattened at the top
level of the object, as Go struct embedding does). -/
def decodeLocationBase (fields : List (String × Json)) :
    Except String LocationBase :=
  match getStringField fields "accountId" with
  | .error e => .error e
  | .ok accountID =>
    match getStringField fields "locationType" with
    | .error e => .error e
    | .ok locationType =>
      match getExtendedAttributesField fields with
      | .error e => .error e
      | .ok extendedAttributes => .ok ⟨accountID, locationType, extendedAttributes⟩

/-- `json.Unmarshal` into `models.AddressLocation`. -/
def decodeAddressLocation (v : Json) : Except String AddressLocation :=
  match v with
  | .null => .ok ⟨⟨"", "", []⟩, zeroAddress⟩
  | .obj fields =>
    match decodeLocationBase fields with
    | .error e => .error e
    | .ok base =>
      match getAddressField fields "address" with
      | .error e => .error e
      | .ok address => .ok ⟨base, address⟩
  | _ => .error "json: cannot unmarshal value into AddressLocation"

/-- `json.Unmarshal` into `models.CoordinatesLocation`. -/
def decodeCoordinatesLocation (v : Json) : Except String CoordinatesLocation :=
  match v with
  | .null => .ok ⟨⟨"", "", []⟩, ⟨0, 0, none, none⟩⟩
  | .obj fields =>
    match decodeLocationBase fields with
    | .error e => .error e
    | .ok base =>
      match getCoordinatesField fields "coordinates" with
      | .error e => .error e
      | .ok coordinates => .ok ⟨base, coordinates⟩
  | _ => .error "json: cannot unmarshal value into CoordinatesLocation"

/-- `json.Unmarshal` into `models.ShopLocation`. -/
def decodeShopLocation (v : Json) : Except String ShopLocation :=
  match v with
  | .null => .ok ⟨⟨"", "", []⟩, ⟨"", "", zeroAddress⟩⟩
  | .obj fields =>
    match decodeLocationBase fields with
    | .error e => .error e
    | .ok base =>
      match getShopField fields "shop" with
      | .error e => .error e
      | .ok shop => .ok ⟨base, shop⟩
  | _ => .error "json: cannot unmarshal value into ShopLocation"

/-- A raw byte payload as seen by `json.Unmarshal`: either it parses to a
document, or it is malformed with a syntax error message. Well-formedness of
the bytes does not depend on the Go target type, so both `Unmarshal` calls in
`UnmarshalLocation` observe the same alternative. -/
inductive RawInput where
  | malformed (msg : String)
  | json (v : Json)

/-- The discriminator peek in `models.UnmarshalLocation`: `json.Unmarshal`
into `struct { LocationType LocationType }`. -/
def peekLocationType (v : Json) : Except String String :=
  match v with
  | .null => .ok ""
  | .obj fields => getStringField fields "locationType"
  | _ => .error "json: cannot unmarshal value into struct"

/-- The `switch base.LocationType` of `models.UnmarshalLocation`: fully
decode the variant selected by the discriminator. -/
def decodeByTag (tag : String) (v : Json) : Except String Location :=
  match tag with
  | "address" =>
      match decodeAddressLocation v with
      | .error e => .error ("failed to unmarshal address location: " ++ e)
      | .ok loc => .ok (.addressLoc loc)
  | "coordinates" =>
      match decodeCoordinatesLocation v with
      | .error e => .error ("failed to unmarshal coordinates location: " ++ e)
      | .ok loc => .ok (.coordinatesLoc loc)
  | "shop" =>
      match decodeShopLocation v with
      | .error e => .error ("failed to unmarshal shop location: " ++ e)
      | .ok loc => .ok (.shopLoc loc)
  | _ => .error ("unknown location type: " ++ tag)

/-- `models.UnmarshalLocation`: peek the `locationType` discriminator, then
fully decode the matching variant. -/
def UnmarshalLocation (data : RawInput) : Except String Location :=
  match data with
  | .malformed msg => .error ("failed to unmarshal location type: " ++ msg)
  | .json v =>
    match peekLocationType v with
    | .error e => .error ("failed to unmarshal location type: " ++ e)
    | .ok tag => decodeByTag tag v

/-! ## `encoding/json` marshaling of the model structs

Fields appear in Go struct order; `omitempty` fields are dropped at their
zero value. A marshaled `map[string]interface{}` is its association list (the
canonical order of the list models the map, whose JSON key order is
irrelevant to equality of the decoded values). -/

/-- `json.Marshal` of `models.Address`. -/
def marshalAddress (a : Address) : Json :=
  .obj ([("streetAddress", .str a.streetAddress)]
    ++ (if a.streetAddress2 = "" then []
        else [("streetAddress2", .str a.streetAddress2)])
    ++ [("city", .str a.city)]
    ++ (if a.stateProvince = "" then []
        else [("stateProvince", .str a.stateProvince)])
    ++ [("postalCode", .str a.postalCode), ("country", .str a.country)])

/-- `json.Marshal` of `models.Coordinates`. -/
def marshalCoordinates (c : Coordinates) : Json :=
  .obj ([("latitude", .num c.latitude), ("longitude", .num c.longitude)]
    ++ (match c.altitude with
        | none => []
        | some x => [("altitude", .num x)])
    ++ (match c.accuracy with
        | none => []
        | some x => [("accuracy", .num x)]))

/-- `json.Marshal` of `models.Shop`. -/
def marshalShop (s : Shop) : Json :=
  .obj [("name", .str s.name), ("contactId", .str s.contactID),
    ("address", marshalAddress s.address)]

/-- The embedded `models.LocationBase` fields, flattened as Go struct
embedding marshals them. -/
def marshalBaseFields (b : LocationBase) : List (String × Json) :=
  [("accountId", .str b.accountID), ("locationType", .str b.locationType)]
    ++ (if b.extendedAttributes.isEmpty then []
        else [("extendedAttributes", .obj b.extendedAttributes)])

/-- `json.Marshal` through the `models.Location` interface (marshals the
dynamic concrete struct). -/
def marshalLocation : Location → Json
  | .addressLoc l =>
      .obj (marshalBaseFields l.toLocationBase ++
        [("address", marshalAddress l.address)])
  | .coordinatesLoc l =>
      .obj (marshalBaseFields l.toLocationBase ++
        [("coordinates", marshalCoordinates l.coordinates)])
  | .shopLoc l =>
      .obj (marshalBaseFields l.toLocationBase ++
        [("shop", marshalShop l.shop)])

/-- The top-level fields of a marshaled location (the
`map[string]interface{}` produced by marshal-then-unmarshal in the handler). -/
def jsonObjFields : Json → List (String × Json)
  | .obj fields => fields
  | _ => []

/-! ## `internal/repository`: the DynamoDB repository

The table is modeled as the list of stored items; `attributevalue`
(un)marshaling between an item and a `locationRecord` is the identity in the
model, so items are records. DynamoDB's conditional-write primitive is
modeled by `StoreOutcome`: a write either succeeds, fails its condition
expression, or fails with any other service error (network, throttling, …),
which the model keeps abstract as a message. -/

/-- `repository.locationRecord`: the persisted representation. `PK` is the
location id, `SK` is the account id, duplicated in the `accountId` attribute
for the GSI. There is no shop block. -/
structure locationRecord where
  PK : String
  SK : String
  accountId : String
  locationType : LocationType
  extendedAttributes : List (String × Json)
  address : Option Address
  coordinates : Option Coordinates

/-- `repository.toLocationRecord`: convert a `Location` to a DynamoDB
record. The `switch` has cases only for the address and coordinates
variants; anything else (in particular a `ShopLocation`) is "unknown". -/
def toLocationRecord (location : Location) (locationID : String) :
    Except String locationRecord :=
  let record : locationRecord :=
    { PK := locationID
      SK := location.GetAccountID
      accountId := location.GetAccountID
      locationType := location.GetLocationType
      extendedAttributes := location.GetExtendedAttributes
      address := none
      coordinates := none }
  match location with
  | .addressLoc l => .ok { record with address := some l.address }
  | .coordinatesLoc l => .ok { record with coordinates := some l.coordinates }
  | .shopLoc _ => .error "unknown location type"

/-- `repository.locationRecord.toLocation`: convert a stored record back to
a `Location`, guarding against a missing shape block. -/
def locationRecord.toLocation (r : locationRecord) : Except String Location :=
  let base : LocationBase :=
    ⟨r.accountId, r.locationType, r.extendedAttributes⟩
  match r.locationType with
  | "address" =>
      match r.address with
      | none => .error "address is nil for address location type"
      | some a => .ok (.addressLoc ⟨base, a⟩)
  | "coordinates" =>
      match r.coordinates with
      | none => .error "coordinates is nil for coordinates location type"
      | some c => .ok (.coordinatesLoc ⟨base, c⟩)
  | _ => .error ("unknown location type: " ++ r.locationType)

/-- The DynamoDB table: its current list of items. -/
abbrev Table := List locationRecord

/-- `GetItem` by the two-part primary key (PK = locationId, SK = accountId). -/
def lookupItem (t : Table) (pk sk : String) : Option locationRecord :=
  t.find? (fun r => r.PK == pk && r.SK == sk)

/-- An unconditional `PutItem`: replace any item under the same key. -/
def putReplace (t : Table) (rec : locationRecord) : Table :=
  rec :: t.filter (fun r => !(r.PK == rec.PK && r.SK == rec.SK))

/-- Outcome of a conditional DynamoDB write: success, a
`ConditionalCheckFailedException`, or any other service error. -/
inductive StoreOutcome (α : Type) where
  | ok (val : α)
  | conditionalCheckFailed
  | serviceError (msg : String)

/-- `PutItem` with `attribute_not_exists(PK) AND attribute_not_exists(SK)`:
the condition is evaluated against the existing item under the new item's
key and fails exactly when one is present. -/
def putItemIfNotExists (t : Table) (rec : locationRecord) :
    StoreOutcome Table :=
  match lookupItem t rec.PK rec.SK with
  | some _ => .conditionalCheckFailed
  | none => .ok (rec :: t)

/-- `PutItem` with `attribute_exists(PK) AND attribute_exists(SK) AND
accountId = :accountId`: the condition fails exactly when no item exists
under the key or the stored `accountId` attribute differs from the supplied
value. -/
def putItemIfOwned (t : Table) (rec : locationRecord) (accountID : String) :
    StoreOutcome Table :=
  match lookupItem t rec.PK rec.SK with
  | none => .conditionalCheckFailed
  | some existing =>
      if existing.accountId = accountID then .ok (putReplace t rec)
      else .conditionalCheckFailed

/-- `DeleteItem` with the same existence-and-ownership condition. -/
def deleteItemIfOwned (t : Table) (pk sk accountID : String) :
    StoreOutcome Table :=
  match lookupItem t pk sk with
  | none => .conditionalCheckFailed
  | some existing =>
      if existing.accountId = accountID then
        .ok (t.filter (fun r => !(r.PK == pk && r.SK == sk)))
      else .conditionalCheckFailed

namespace DynamoDBRepository

/-- The error translation in `Create`'s `PutItem` call:
`ConditionalCheckFailedException` becomes "location already exists", any
other store failure is wrapped as a create failure. -/
def mapCreateOutcome (out : StoreOutcome Table) : Except String Table :=
  match out with
  | .ok t => .ok t
  | .conditionalCheckFailed => .error "location already exists"
  | .serviceError m => .error ("failed to create location: " ++ m)

/-- The error translation in `Update`'s `PutItem` call. -/
def mapUpdateOutcome (out : StoreOutcome Table) : Except String Table :=
  match out with
  | .ok t => .ok t
  | .conditionalCheckFailed => .error "location not found or access denied"
  | .serviceError m => .error ("failed to update location: " ++ m)

/-- The error translation in `Delete`'s `DeleteItem` call. -/
def mapDeleteOutcome (out : StoreOutcome Table) : Except String Table :=
  match out with
  | .ok t => .ok t
  | .conditionalCheckFailed => .error "location not found or access denied"
  | .serviceError m => .error ("failed to delete location: " ++ m)

/-- `DynamoDBRepository.Create`. `uuid.New()` is an external source of
randomness, so the freshly generated identifier is an explicit argument;
on success the identifier and the new table state are returned. -/
def Create (t : Table) (location : Location) (locationID : String) :
    Except String (String × Table) :=
  match location.Validate with
  | some e => .error ("validation failed: " ++ e)
  | none =>
    match toLocationRecord location locationID with
    | .error e => .error ("failed to convert location to record: " ++ e)
    | .ok record =>
      match mapCreateOutcome (putItemIfNotExists t record) with
      | .error e => .error e
      | .ok t' => .ok (locationID, t')

/-- `DynamoDBRepository.Get`. -/
def Get (t : Table) (accountID locationID : String) :
    Except String Location :=
  match lookupItem t locationID accountID with
  | none => .error "location not found"
  | some record => record.toLocation

/-- `DynamoDBRepository.Update`. -/
def Update (t : Table) (location : Location) (locationID : String) :
    Except String Table :=
  match location.Validate with
  | some e => .error ("validation failed: " ++ e)
  | none =>
    match toLocationRecord location locationID with
    | .error e => .error ("failed to convert location to record: " ++ e)
    | .ok record =>
      mapUpdateOutcome (putItemIfOwned t record location.GetAccountID)

/-- `DynamoDBRepository.Delete`. -/
def Delete (t : Table) (accountID locationID : String) :
    Except String Table :=
  mapDeleteOutcome (deleteItemIfOwned t locationID accountID accountID)

end DynamoDBRepository

/-! ## Byte-level plumbing for the pagination cursor

`encodeCursor` is `base64(json.Marshal(cursor))` over UTF-8 bytes and
`decodeCursor` is the inverse pipeline, so the model includes executable
UTF-8, standard base64, and the JSON text form of the cursor struct. Bytes
are naturals below 256. -/

/-- UTF-8 encoding of one scalar value. -/
def utf8EncodeChar (c : Char) : List ℕ :=
  let n := c.toNat
  if n < 0x80 then [n]
  else if n < 0x800 then [0xC0 + n / 64, 0x80 + n % 64]
  else if n < 0x10000 then
    [0xE0 + n / 4096, 0x80 + (n / 64) % 64, 0x80 + n % 64]
  else
    [0xF0 + n / 262144, 0x80 + (n / 4096) % 64, 0x80 + (n / 64) % 64,
      0x80 + n % 64]

/-- UTF-8 encoding of a string. -/
def utf8Encode (s : String) : List ℕ :=
  (s.data.map utf8EncodeChar).flatten

/-- Decode one UTF-8 scalar from the front of a byte list: the character and
the remaining bytes. Rejects truncated and overlong sequences, surrogates,
and out-of-range values. -/
def utf8DecodeChar : List ℕ → Option (Char × List ℕ)
  | [] => none
  | b :: bs =>
    if b < 0x80 then some (Char.ofNat b, bs)
    else if b < 0xC0 then none
    else if b < 0xE0 then
      (bs.head?).bind fun b1 =>
        if 0x80 ≤ b1 ∧ b1 < 0xC0 then
          if (b - 0xC0) * 64 + (b1 - 0x80) < 0x80 then none
          else some (Char.ofNat ((b - 0xC0) * 64 + (b1 - 0x80)), bs.tail)
        else none
    else if b < 0xF0 then
      (bs.head?).bind fun b1 =>
        ((bs.tail).head?).bind fun b2 =>
          if (0x80 ≤ b1 ∧ b1 < 0xC0) ∧ (0x80 ≤ b2 ∧ b2 < 0xC0) then
            if (b - 0xE0) * 4096 + (b1 - 0x80) * 64 + (b2 - 0x80) < 0x800 ∨
                (0xD800 ≤ (b - 0xE0) * 4096 + (b1 - 0x80) * 64 + (b2 - 0x80) ∧
                  (b - 0xE0) * 4096 + (b1 - 0x80) * 64 + (b2 - 0x80) <
                    0xE000) then
              none
            else
              some (Char.ofNat ((b - 0xE0) * 4096 + (b1 - 0x80) * 64 +
                (b2 - 0x80)), (bs.tail).tail)
          else none
    else if b < 0xF8 then
      (bs.head?).bind fun b1 =>
        ((bs.tail).head?).bind fun b2 =>
          (((bs.tail).tail).head?).bind fun b3 =>
            if (0x80 ≤ b1 ∧ b1 < 0xC0) ∧ (0x80 ≤ b2 ∧ b2 < 0xC0) ∧
                (0x80 ≤ b3 ∧ b3 < 0xC0) then
              if (b - 0xF0) * 262144 + (b1 - 0x80) * 4096 + (b2 - 0x80) * 64 +
                  (b3 - 0x80) < 0x10000 ∨
                  0x110000 ≤ (b - 0xF0) * 262144 + (b1 - 0x80) * 4096 +
                    (b2 - 0x80) * 64 + (b3 - 0x80) then
                none
              else
                some (Char.ofNat ((b - 0xF0) * 262144 + (b1 - 0x80) * 4096 +
                  (b2 - 0x80) * 64 + (b3 - 0x80)), ((bs.tail).tail).tail)
            else none
    else none

/-- The decode loop: each step consumes at least one byte, so the input
length is enough fuel. -/
def utf8DecodeAux : ℕ → List ℕ → Option (List Char)
  | _, [] => some []
  | 0, _ :: _ => none
  | fuel + 1, b :: bs =>
    (utf8DecodeChar (b :: bs)).bind fun p =>
      (utf8DecodeAux fuel p.2).map (p.1 :: ·)

/-- Strict UTF-8 decoding of a whole byte list. -/
def utf8Decode (bytes : List ℕ) : Option (List Char) :=
  utf8DecodeAux bytes.length bytes

/-- The standard base64 alphabet, indexed by a sextet. -/
def b64AlphaChar (n : ℕ) : Char :=
  if n < 26 then Char.ofNat (65 + n)
  else if n < 52 then Char.ofNat (97 + (n - 26))
  else if n < 62 then Char.ofNat (48 + (n - 52))
  else if n = 62 then '+'
  else '/'

/-- Inverse of the base64 alphabet. -/
def b64CharVal (c : Char) : Option ℕ :=
  let n := c.toNat
  if 65 ≤ n ∧ n ≤ 90 then some (n - 65)
  else if 97 ≤ n ∧ n ≤ 122 then some (n - 97 + 26)
  else if 48 ≤ n ∧ n ≤ 57 then some (n - 48 + 52)
  else if c = '+' then some 62
  else if c = '/' then some 63
  else none

/-- `base64.StdEncoding.EncodeToString`: three bytes per four characters,
with `=` padding. -/
def b64EncodeChars : List ℕ → List Char
  | [] => []
  | [a] => [b64AlphaChar (a / 4), b64AlphaChar ((a % 4) * 16), '=', '=']
  | [a, b] =>
      [b64AlphaChar (a / 4), b64AlphaChar ((a % 4) * 16 + b / 16),
        b64AlphaChar ((b % 16) * 4), '=']
  | a :: b :: c :: rest =>
      b64AlphaChar (a / 4) :: b64AlphaChar ((a % 4) * 16 + b / 16) ::
        b64AlphaChar ((b % 16) * 4 + c / 64) :: b64AlphaChar (c % 64) ::
        b64EncodeChars rest

/-- `base64.StdEncoding.DecodeString`: requires four-character groups with
valid padding. -/
def b64DecodeChars : List Char → Except String (List ℕ)
  | [] => .ok []
  | c1 :: c2 :: c3 :: c4 :: rest =>
    match b64CharVal c1, b64CharVal c2 with
    | some v1, some v2 =>
      if c3 = '=' ∧ c4 = '=' ∧ rest = [] then .ok [v1 * 4 + v2 / 16]
      else if c4 = '=' ∧ rest = [] then
        match b64CharVal c3 with
        | some v3 => .ok [v1 * 4 + v2 / 16, (v2 % 16) * 16 + v3 / 4]
        | none => .error "illegal base64 data"
      else
        match b64CharVal c3, b64CharVal c4 with
        | some v3, some v4 =>
          match b64DecodeChars rest with
          | .ok bs =>
              .ok ((v1 * 4 + v2 / 16) :: ((v2 % 16) * 16 + v3 / 4) ::
                ((v3 % 4) * 64 + v4) :: bs)
          | .error e => .error e
        | _, _ => .error "illegal base64 data"
    | _, _ => .error "illegal base64 data"
  | _ => .error "illegal base64 data"

/-- Opening brace character of JSON object syntax. -/
def lbrace : Char := Char.ofNat 123

/-- Closing brace character of JSON object syntax. -/
def rbrace : Char := Char.ofNat 125

/-- Hex digit as emitted by Go's JSON encoder (lowercase). -/
def hexDigitChar (n : ℕ) : Char :=
  if n < 10 then Char.ofNat (48 + n) else Char.ofNat (87 + n)

/-- Go's JSON string escaping (`encodeState.string` with HTML escaping on):
quotes, backslashes and the `\n`/`\r`/`\t` controls get two-character
escapes, other controls and `<`, `>`, `&` become `\u00XX`, and
U+2028/U+2029 become `\u202X`; everything else is emitted verbatim. -/
def escapeChar (c : Char) : List Char :=
  if c = '"' ∨ c = '\\' then ['\\', c]
  else if c = '\n' then ['\\', 'n']
  else if c = '\r' then ['\\', 'r']
  else if c = '\t' then ['\\', 't']
  else if c.toNat < 0x20 ∨ c = '<' ∨ c = '>' ∨ c = '&' then
    ['\\', 'u', '0', '0', hexDigitChar (c.toNat / 16),
      hexDigitChar (c.toNat % 16)]
  else if c.toNat = 0x2028 ∨ c.toNat = 0x2029 then
    ['\\', 'u', '2', '0', '2', hexDigitChar (c.toNat % 16)]
  else [c]

/-- A JSON string literal: quoted, escaped contents. -/
def quoteChars (s : String) : List Char :=
  '"' :: (s.data.map escapeChar).flatten ++ ['"']

/-- One `"key":"value"` member of a JSON object. -/
def fieldChars (key value : String) : List Char :=
  quoteChars key ++ ':' :: quoteChars value

/-- The members of a JSON object, comma-separated, with the closing brace. -/
def fieldsChars : List (String × String) → List Char
  | [] => [rbrace]
  | [f] => fieldChars f.1 f.2 ++ [rbrace]
  | f :: fs => fieldChars f.1 f.2 ++ ',' :: fieldsChars fs

/-- The text of a flat JSON object with string members, exactly as Go's
encoder emits it (no whitespace, fields in struct order). -/
def objChars (fs : List (String × String)) : List Char :=
  lbrace :: fieldsChars fs

/-- `repository.paginationCursor`: the opaque token's payload. -/
structure paginationCursor where
  pk : String
  sk : String
  accountId : String
  deriving DecidableEq

/-- `json.Marshal` of a `paginationCursor` (field order pk, sk, accountId,
per the struct tags). -/
def jsonMarshalCursor (c : paginationCursor) : String :=
  String.mk (objChars [("pk", c.pk), ("sk", c.sk), ("accountId", c.accountId)])

/-- Value of one hex digit accepted by the JSON string parser. -/
def hexVal (c : Char) : Option ℕ :=
  let n := c.toNat
  if 48 ≤ n ∧ n ≤ 57 then some (n - 48)
  else if 97 ≤ n ∧ n ≤ 102 then some (n - 87)
  else if 65 ≤ n ∧ n ≤ 70 then some (n - 55)
  else none

/-- One pass of the JSON string-literal scanner (fuel-indexed; each step
consumes at least one character, so the input length is enough fuel). -/
def unescapeAux : ℕ → List Char → Option (List Char × List Char)
  | _, [] => none
  | 0, _ :: _ => none
  | fuel + 1, c :: cs =>
    if c = '"' then some ([], cs)
    else if c = '\\' then
      (cs.head?).bind fun e =>
        if e = '"' ∨ e = '\\' ∨ e = '/' then
          (unescapeAux fuel cs.tail).map (fun p => (e :: p.1, p.2))
        else if e = 'n' then
          (unescapeAux fuel cs.tail).map (fun p => ('\n' :: p.1, p.2))
        else if e = 'r' then
          (unescapeAux fuel cs.tail).map (fun p => ('\r' :: p.1, p.2))
        else if e = 't' then
          (unescapeAux fuel cs.tail).map (fun p => ('\t' :: p.1, p.2))
        else if e = 'b' then
          (unescapeAux fuel cs.tail).map (fun p => ('\x08' :: p.1, p.2))
        else if e = 'f' then
          (unescapeAux fuel cs.tail).map (fun p => ('\x0c' :: p.1, p.2))
        else if e = 'u' then
          ((cs.tail).head?).bind fun h1 =>
            (((cs.tail).tail).head?).bind fun h2 =>
              ((((cs.tail).tail).tail).head?).bind fun h3 =>
                (((((cs.tail).tail).tail).tail).head?).bind fun h4 =>
                  (hexVal h1).bind fun a =>
                    (hexVal h2).bind fun b =>
                      (hexVal h3).bind fun c' =>
                        (hexVal h4).bind fun d =>
                          if 0xD800 ≤ ((a * 16 + b) * 16 + c') * 16 + d ∧
                              ((a * 16 + b) * 16 + c') * 16 + d < 0xE000 then
                            none
                          else
                            (unescapeAux fuel
                              ((((cs.tail).tail).tail).tail).tail).map
                              (fun p =>
                                (Char.ofNat (((a * 16 + b) * 16 + c') * 16 + d)
                                  :: p.1, p.2))
        else none
    else (unescapeAux fuel cs).map (fun p => (c :: p.1, p.2))

/-- Parse the contents of a JSON string literal after the opening quote,
undoing the escapes; returns the contents and the text after the closing
quote. Lone `\uXXXX` surrogates are rejected (the marshaler never emits
them). -/
def unescapeString (cs : List Char) : Option (List Char × List Char) :=
  unescapeAux cs.length cs

/-- JSON insignificant whitespace. -/
def skipWs (cs : List Char) : List Char :=
  cs.dropWhile (fun c => c == ' ' || c == '\t' || c == '\n' || c == '\r')

/-- Parse the members of a flat string-valued JSON object, after the opening
brace. This models `json.Unmarshal` restricted to the object shapes the
cursor can carry — every document `encodeCursor` produces is of this shape. -/
def parseCursorFields (fuel : ℕ) (cs : List Char) :
    Option (List (String × String) × List Char) :=
  match fuel with
  | 0 => none
  | fuel + 1 =>
    match skipWs cs with
    | [] => none
    | c :: cs1 =>
      if c = rbrace then some ([], cs1)
      else if c = '"' then
        match unescapeString cs1 with
        | none => none
        | some (key, rest1) =>
          match skipWs rest1 with
          | ':' :: rest2 =>
            match skipWs rest2 with
            | '"' :: rest3 =>
              match unescapeString rest3 with
              | none => none
              | some (value, rest4) =>
                match skipWs rest4 with
                | ',' :: rest5 =>
                    (parseCursorFields fuel rest5).map
                      (fun p =>
                        ((String.mk key, String.mk value) :: p.1, p.2))
                | c2 :: rest5 =>
                    if c2 = rbrace then
                      some ([(String.mk key, String.mk value)], rest5)
                    else none
                | [] => none
            | _ => none
          | _ => none
      else none

/-- Last-wins lookup of a string member (later duplicate keys overwrite, as
in `encoding/json`). -/
def lookupStrField (fields : List (String × String)) (key : String) : String :=
  (((fields.reverse).find? (fun p => p.1 == key)).map (·.2)).getD ""

/-- `json.Unmarshal` of cursor bytes into `paginationCursor`: an object with
string members (or `null`, which leaves the zero struct); unknown keys are
ignored, missing keys leave `""`. -/
def parseCursorJson (s : String) : Except String paginationCursor :=
  match skipWs s.data with
  | [] => .error "unexpected end of JSON input"
  | c :: cs =>
    if c = lbrace then
      match parseCursorFields (cs.length + 1) cs with
      | none => .error "invalid character in cursor JSON"
      | some (fields, rest) =>
        if skipWs rest = [] then
          .ok ⟨lookupStrField fields "pk", lookupStrField fields "sk",
            lookupStrField fields "accountId"⟩
        else .error "invalid character after top-level value"
    else if c = 'n' then
      match cs with
      | 'u' :: 'l' :: 'l' :: rest =>
        if skipWs rest = [] then .ok ⟨"", "", ""⟩
        else .error "invalid character after top-level value"
      | _ => .error "json: cannot unmarshal value into paginationCursor"
    else .error "json: cannot unmarshal value into paginationCursor"

namespace DynamoDBRepository

/-- `DynamoDBRepository.encodeCursor`: nil in, nil out; otherwise base64 of
the marshaled cursor (`json.Marshal` cannot fail on this struct, so the
error return is never taken). -/
def encodeCursor (cursor : Option paginationCursor) : Option String :=
  cursor.map (fun c => String.mk (b64EncodeChars (utf8Encode (jsonMarshalCursor c))))

/-- `DynamoDBRepository.decodeCursor`: nil or empty in, nil out; otherwise
base64-decode then unmarshal, wrapping the failing step's error. -/
def decodeCursor (cursorStr : Option String) :
    Except String (Option paginationCursor) :=
  match cursorStr with
  | none => .ok none
  | some s =>
    if s = "" then .ok none
    else
      match b64DecodeChars s.data with
      | .error e => .error ("failed to decode cursor: " ++ e)
      | .ok bytes =>
        match utf8Decode bytes with
        | none => .error "failed to unmarshal cursor: invalid UTF-8"
        | some chars =>
          match parseCursorJson (String.mk chars) with
          | .error e => .error ("failed to unmarshal cursor: " ++ e)
          | .ok cur => .ok (some cur)

end DynamoDBRepository

/-- A DynamoDB `LastEvaluatedKey`/`ExclusiveStartKey` for this table: the
`PK`, `SK` and `accountId` attributes. -/
structure LastEvaluatedKey where
  PK : String
  SK : String
  accountId : String

namespace DynamoDBRepository

/-- `DynamoDBRepository.cursorToLastEvaluatedKey` (nil in, nil out). -/
def cursorToLastEvaluatedKey (cursor : Option paginationCursor) :
    Option LastEvaluatedKey :=
  cursor.map (fun c => ⟨c.pk, c.sk, c.accountId⟩)

/-- `DynamoDBRepository.lastEvaluatedKeyToCursor` (nil in, nil out). -/
def lastEvaluatedKeyToCursor (lek : Option LastEvaluatedKey) :
    Option paginationCursor :=
  lek.map (fun k => ⟨k.PK, k.SK, k.accountId⟩)

end DynamoDBRepository

/-- Code-unit order on strings (byte order of the underlying keys, used only
to fix the GSI's deterministic ascending order). -/
def charListLt : List Char → List Char → Bool
  | [], [] => false
  | [], _ :: _ => true
  | _ :: _, [] => false
  | a :: as, b :: bs =>
      if a.toNat < b.toNat then true
      else if b.toNat < a.toNat then false
      else charListLt as bs

/-- Strict string order for the query sort. -/
def strLtB (a b : String) : Bool := charListLt a.data b.data

/-- Ascending order on records by (PK, SK) — locationId ascending, the
order `ScanIndexForward: true` requests. -/
def recordLE (a b : locationRecord) : Bool :=
  if a.PK == b.PK then strLtB a.SK b.SK || a.SK == b.SK
  else strLtB a.PK b.PK

/-- Is the record's key strictly after the exclusive start key? -/
def afterKey (k : LastEvaluatedKey) (r : locationRecord) : Bool :=
  strLtB k.PK r.PK || (k.PK == r.PK && strLtB k.SK r.SK)

/-- The `Query` call on the GSI (`accountId = :accountId`, ascending, with
`Limit` and `ExclusiveStartKey`): returns the page of items and the
`LastEvaluatedKey`, which is present exactly when matching items remain
beyond the page. -/
def gsiQuery (t : Table) (accountID : String) (limit : ℕ)
    (startKey : Option LastEvaluatedKey) :
    List locationRecord × Option LastEvaluatedKey :=
  let matching := (t.filter (fun r => r.accountId == accountID)).mergeSort recordLE
  let afterStart :=
    match startKey with
    | none => matching
    | some k => matching.filter (afterKey k)
  let page := afterStart.take limit
  if limit < afterStart.length then
    (page, (page.getLast?).map (fun r => ⟨r.PK, r.SK, r.accountId⟩))
  else (page, none)

/-- `repository.ListOptions` (both fields are pointers in Go). -/
structure ListOptions where
  limit : Option ℤ
  cursor : Option String

/-- `repository.ListResult`. -/
structure ListResult where
  locations : List Location
  nextCursor : Option String

namespace DynamoDBRepository

/-- The default page size installed by `NewDynamoDBRepository`. -/
def defaultLimit : ℤ := 20

/-- The limit resolution at the top of `List`: the caller's limit if the
options pointer and the limit pointer are both non-nil, else the default. -/
def resolveLimit (options : Option ListOptions) : ℤ :=
  match options with
  | none => defaultLimit
  | some o =>
    match o.limit with
    | some l => l
    | none => defaultLimit

/-- The item-conversion loop in `List`, wrapping the first conversion
failure. -/
def convertItems : List locationRecord → Except String (List Location)
  | [] => .ok []
  | r :: rs =>
    match r.toLocation with
    | .error e => .error ("failed to convert record to location: " ++ e)
    | .ok loc => (convertItems rs).map (loc :: ·)

/-- The query-and-shape tail of `List`, after the start key is known:
convert the page and mint the outgoing cursor exactly when the query
reported a `LastEvaluatedKey`. -/
def listFromQuery (t : Table) (accountID : String) (limit : ℤ)
    (startKey : Option LastEvaluatedKey) : Except String ListResult :=
  let out := gsiQuery t accountID limit.toNat startKey
  match convertItems out.1 with
  | .error e => .error e
  | .ok locations =>
    .ok ⟨locations,
      match out.2 with
      | none => none
      | some k => encodeCursor (lastEvaluatedKeyToCursor (some k))⟩

/-- `DynamoDBRepository.List`. -/
def ListOp (t : Table) (accountID : String) (options : Option ListOptions) :
    Except String ListResult :=
  let limit := resolveLimit options
  match options with
  | some o =>
    match o.cursor with
    | some _ =>
      match decodeCursor o.cursor with
      | .error e => .error ("failed to decode cursor: " ++ e)
      | .ok cur => listFromQuery t accountID limit (cursorToLastEvaluatedKey cur)
    | none => listFromQuery t accountID limit none
  | none => listFromQuery t accountID limit none

/-- The query-and-shape tail of the repository list as the handler snapshot
consumes it.

Modelled from the spec: the handler's `handleListLocations` reads a
`LocationIDs` field from the repository's list result ("its identifier
injected positionally from the repository's parallel identifier list",
§4.3), but the repository source in the tree predates that field. The
identifier list is the partition keys of the returned page, index-aligned
with the locations. -/
def listFromQueryWithIDs (t : Table) (accountID : String) (limit : ℤ)
    (startKey : Option LastEvaluatedKey) :
    Except String (List Location × List String × Option String) :=
  let out := gsiQuery t accountID limit.toNat startKey
  match convertItems out.1 with
  | .error e => .error e
  | .ok locations =>
    .ok (locations, out.1.map (·.PK),
      match out.2 with
      | none => none
      | some k => encodeCursor (lastEvaluatedKeyToCursor (some k)))

/-- Modelled from the spec: `DynamoDBRepository.List` as consumed by the
handler snapshot, additionally returning the parallel identifier list (see
`listFromQueryWithIDs`). The control flow is that of `List`. -/
def ListOpWithIDs (t : Table) (accountID : String)
    (options : Option ListOptions) :
    Except String (List Location × List String × Option String) :=
  let limit := resolveLimit options
  match options with
  | some o =>
    match o.cursor with
    | some _ =>
      match decodeCursor o.cursor with
      | .error e => .error ("failed to decode cursor: " ++ e)
      | .ok cur =>
          listFromQueryWithIDs t accountID limit (cursorToLastEvaluatedKey cur)
    | none => listFromQueryWithIDs t accountID limit none
  | none => listFromQueryWithIDs t accountID limit none

end DynamoDBRepository

/-! ## `internal/handler`: the AppSync dispatcher

The embedded handler is the snapshot its unit tests compile against: create
aliases route to a bare-identifier response, get and list flatten each
location into a field map with injected `locationId` and `__typename`
entries, and update/delete return booleans. Only `field` and `arguments` of
the AppSync event are read, so only those are modeled. -/

/-- `handler.AppSyncEvent` (the unread `source`/`identity`/`request`
members are omitted). -/
structure AppSyncEvent where
  field : String
  arguments : RawInput

/-- `handler.GetLocationArguments`. -/
structure GetLocationArguments where
  accountID : String
  locationID : String

/-- `handler.CreateLocationArguments`: `Input` is a `json.RawMessage`, so it
captures the raw sub-document (`none` when the field is absent — a nil
`RawMessage`). -/
structure CreateLocationArguments where
  input : Option Json

/-- `handler.UpdateLocationArguments`. -/
structure UpdateLocationArguments where
  locationID : String
  input : Option Json

/-- `handler.DeleteLocationArguments`. -/
structure DeleteLocationArguments where
  accountID : String
  locationID : String

/-- `handler.ListLocationsArguments`. -/
structure ListLocationsArguments where
  accountID : String
  limit : Option ℤ
  cursor : Option String

/-- `json.Unmarshal` on a captured `json.RawMessage`: a nil message fails
as truncated input, otherwise the sub-document is re-decoded. -/
def rawMessageInput : Option Json → RawInput
  | none => .malformed "unexpected end of JSON input"
  | some v => .json v

/-- Decode a `json.RawMessage` struct field (absent stays nil; `null`
is the four raw bytes `null`, not a nil message). -/
def getRawMessageField (fields : List (String × Json)) (key : String) :
    Option Json :=
  lookupField fields key

/-- Decode a Go `*int32` struct field; a fractional number is a decode
error. -/
def getOptIntField (fields : List (String × Json)) (key : String) :
    Except String (Option ℤ) :=
  match lookupField fields key with
  | none => .ok none
  | some .null => .ok none
  | some (.num q) =>
      if q.den = 1 then .ok (some q.num)
      else .error ("json: cannot unmarshal value into int32 field " ++ key)
  | some _ => .error ("json: cannot unmarshal value into int32 field " ++ key)

/-- Decode a Go `*string` struct field. -/
def getOptStringField (fields : List (String × Json)) (key : String) :
    Except String (Option String) :=
  match lookupField fields key with
  | none => .ok none
  | some .null => .ok none
  | some (.str s) => .ok (some s)
  | some _ => .error ("json: cannot unmarshal value into string field " ++ key)

/-- `json.Unmarshal` of the event arguments into `GetLocationArguments`. -/
def parseGetLocationArguments (args : RawInput) :
    Except String GetLocationArguments :=
  match args with
  | .malformed msg => .error msg
  | .json .null => .ok ⟨"", ""⟩
  | .json (.obj fields) => do
      let accountID ← getStringField fields "accountId"
      let locationID ← getStringField fields "locationId"
      return ⟨accountID, locationID⟩
  | .json _ => .error "json: cannot unmarshal value into GetLocationArguments"

/-- `json.Unmarshal` of the event arguments into `CreateLocationArguments`. -/
def parseCreateLocationArguments (args : RawInput) :
    Except String CreateLocationArguments :=
  match args with
  | .malformed msg => .error msg
  | .json .null => .ok ⟨none⟩
  | .json (.obj fields) => .ok ⟨getRawMessageField fields "input"⟩
  | .json _ =>
      .error "json: cannot unmarshal value into CreateLocationArguments"

/-- `json.Unmarshal` of the event arguments into `UpdateLocationArguments`. -/
def parseUpdateLocationArguments (args : RawInput) :
    Except String UpdateLocationArguments :=
  match args with
  | .malformed msg => .error msg
  | .json .null => .ok ⟨"", none⟩
  | .json (.obj fields) => do
      let locationID ← getStringField fields "locationId"
      return ⟨locationID, getRawMessageField fields "input"⟩
  | .json _ =>
      .error "json: cannot unmarshal value into UpdateLocationArguments"

/-- `json.Unmarshal` of the event arguments into `DeleteLocationArguments`. -/
def parseDeleteLocationArguments (args : RawInput) :
    Except String DeleteLocationArguments :=
  match args with
  | .malformed msg => .error msg
  | .json .null => .ok ⟨"", ""⟩
  | .json (.obj fields) => do
      let accountID ← getStringField fields "accountId"
      let locationID ← getStringField fields "locationId"
      return ⟨accountID, locationID⟩
  | .json _ =>
      .error "json: cannot unmarshal value into DeleteLocationArguments"

/-- `json.Unmarshal` of the event arguments into `ListLocationsArguments`. -/
def parseListLocationsArguments (args : RawInput) :
    Except String ListLocationsArguments :=
  match args with
  | .malformed msg => .error msg
  | .json .null => .ok ⟨"", none, none⟩
  | .json (.obj fields) => do
      let accountID ← getStringField fields "accountId"
      let limit ← getOptIntField fields "limit"
      let cursor ← getOptStringField fields "cursor"
      return ⟨accountID, limit, cursor⟩
  | .json _ =>
      .error "json: cannot unmarshal value into ListLocationsArguments"

/-- The flattened response for one location: marshal it, read the fields
back as a `map[string]interface{}`, then inject `locationId` and the
`__typename` chosen by the switch on `GetLocationType()` (which has no
default case). -/
def locationResponseMap (location : Location) (locationID : String) :
    List (String × Json) :=
  let result := jsonObjFields (marshalLocation location)
  let result := setKey result "locationId" (.str locationID)
  match location.GetLocationType with
  | "address" => setKey result "__typename" (.str "AddressLocation")
  | "coordinates" => setKey result "__typename" (.str "CoordinatesLocation")
  | "shop" => setKey result "__typename" (.str "ShopLocation")
  | _ => result

/-- `handler.ListLocationsResponse` of the embedded snapshot: flattened
location maps plus the outgoing cursor. -/
structure ListLocationsResponse where
  locations : List (List (String × Json))
  nextCursor : Option String

/-- The response value `Handle` returns (`interface{}` in Go). -/
inductive HandlerResponse where
  | str (s : String)
  | obj (fields : List (String × Json))
  | bool (b : Bool)
  | list (r : ListLocationsResponse)

namespace AppSyncHandler

/-- `AppSyncHandler.handleCreateLocation`: decode arguments, decode and
validate the payload, store it under the freshly generated identifier. -/
def handleCreateLocation (t : Table) (freshID : String) (args : RawInput) :
    Except String (String × Table) :=
  match parseCreateLocationArguments args with
  | .error e => .error ("failed to unmarshal arguments: " ++ e)
  | .ok cargs =>
    match UnmarshalLocation (rawMessageInput cargs.input) with
    | .error e => .error ("failed to unmarshal location: " ++ e)
    | .ok location =>
      match DynamoDBRepository.Create t location freshID with
      | .error e => .error ("failed to create location: " ++ e)
      | .ok (locationID, t') => .ok (locationID, t')

/-- `AppSyncHandler.handleGetLocation`: fetch and flatten. -/
def handleGetLocation (t : Table) (args : RawInput) :
    Except String (List (String × Json)) :=
  match parseGetLocationArguments args with
  | .error e => .error ("failed to unmarshal arguments: " ++ e)
  | .ok gargs =>
    match DynamoDBRepository.Get t gargs.accountID gargs.locationID with
    | .error e => .error ("failed to get location: " ++ e)
    | .ok location => .ok (locationResponseMap location gargs.locationID)

/-- `AppSyncHandler.handleUpdateLocation`. -/
def handleUpdateLocation (t : Table) (args : RawInput) :
    Except String (Bool × Table) :=
  match parseUpdateLocationArguments args with
  | .error e => .error ("failed to unmarshal arguments: " ++ e)
  | .ok uargs =>
    match UnmarshalLocation (rawMessageInput uargs.input) with
    | .error e => .error ("failed to unmarshal location: " ++ e)
    | .ok location =>
      match DynamoDBRepository.Update t location uargs.locationID with
      | .error e => .error ("failed to update location: " ++ e)
      | .ok t' => .ok (true, t')

/-- `AppSyncHandler.handleDeleteLocation`. -/
def handleDeleteLocation (t : Table) (args : RawInput) :
    Except String (Bool × Table) :=
  match parseDeleteLocationArguments args with
  | .error e => .error ("failed to unmarshal arguments: " ++ e)
  | .ok dargs =>
    match DynamoDBRepository.Delete t dargs.accountID dargs.locationID with
    | .error e => .error ("failed to delete location: " ++ e)
    | .ok t' => .ok (true, t')

/-- `AppSyncHandler.handleListLocations`: list, then flatten each location
with its positionally-aligned identifier. -/
def handleListLocations (t : Table) (args : RawInput) :
    Except String ListLocationsResponse :=
  match parseListLocationsArguments args with
  | .error e => .error ("failed to unmarshal arguments: " ++ e)
  | .ok largs =>
    match DynamoDBRepository.ListOpWithIDs t largs.accountID
        (some ⟨largs.limit, largs.cursor⟩) with
    | .error e => .error ("failed to list locations: " ++ e)
    | .ok (locations, ids, nextCursor) =>
      .ok ⟨(locations.zip ids).map (fun p => locationResponseMap p.1 p.2),
        nextCursor⟩

/-- `AppSyncHandler.Handle`: the routing table. Mutating operations return
the new table state alongside the response. -/
def Handle (t : Table) (freshID : String) (event : AppSyncEvent) :
    Except String (HandlerResponse × Table) :=
  match event.field with
  | "createLocation" | "createAddressLocation" | "createCoordinatesLocation"
  | "createShopLocation" =>
      (handleCreateLocation t freshID event.arguments).map
        (fun p => (.str p.1, p.2))
  | "getLocation" =>
      (handleGetLocation t event.arguments).map (fun m => (.obj m, t))
  | "updateLocation" | "updateAddressLocation" | "updateCoordinatesLocation"
  | "updateShopLocation" =>
      (handleUpdateLocation t event.arguments).map (fun p => (.bool p.1, p.2))
  | "deleteLocation" =>
      (handleDeleteLocation t event.arguments).map (fun p => (.bool p.1, p.2))
  | "listLocations" =>
      (handleListLocations t event.arguments).map (fun r => (.list r, t))
  | _ => .error ("unknown field: " ++ event.field)

end AppSyncHandler

/-! ## Helper lemmas -/

/-- Two error values with provably different messages differ. -/
theorem except_error_ne {α : Type} {s t : String} (h : s ≠ t) :
    (Except.error s : Except String α) ≠ .error t := by
  intro he
  exact h (by injection he)

/-- A string with a longer prefix cannot equal a shorter string. -/
theorem append_len_ne (p m t : String) (h : t.length < p.length) :
    p ++ m ≠ t := by
  intro he
  have hl := congrArg String.length he
  rw [String.length_append] at hl
  omega

/-- Strings whose first characters differ are different, whatever follows
the prefix. -/
theorem append_head_ne (p m t : String) (c : Char)
    (hp : p.data.head? = some c) (ht : t.data.head? ≠ some c) : p ++ m ≠ t := by
  intro h
  apply ht
  have h2 : (p ++ m).data = p.data ++ m.data := rfl
  have h3 := congrArg (fun l => List.head? l) (h2 ▸ congrArg String.data h)
  cases hd : p.data with
  | nil => rw [hd] at hp; exact absurd hp (by simp)
  | cons a l =>
    rw [hd] at hp h3
    simp at h3 hp
    subst hp
    simp [← h3]

/-- The fields recorded by a successful `toLocationRecord`: the partition
key is the supplied identifier and both account attributes are the
location's account id. -/
theorem toLocationRecord_ok_fields (location : Location) (locationID : String)
    (rec : locationRecord) (h : toLocationRecord location locationID = .ok rec) :
    rec.PK = locationID ∧ rec.SK = location.GetAccountID ∧
      rec.accountId = location.GetAccountID := by
  cases location <;>
    (simp only [toLocationRecord] at h) <;>
    (first
      | (injection h with h2; subst h2; exact ⟨rfl, rfl, rfl⟩)
      | exact absurd h (by simp))

/-- A successfully decoded `LocationBase` carries exactly the string that
the `locationType` member decodes to. -/
theorem decodeLocationBase_locationType (fields : List (String × Json))
    (b : LocationBase) (h : decodeLocationBase fields = .ok b) :
    getStringField fields "locationType" = .ok b.locationType := by
  unfold decodeLocationBase at h
  cases h1 : getStringField fields "accountId" with
  | error e => rw [h1] at h; simp at h
  | ok accountID =>
    rw [h1] at h
    cases h2 : getStringField fields "locationType" with
    | error e => rw [h2] at h; simp at h
    | ok lt =>
      rw [h2] at h
      cases h3 : getExtendedAttributesField fields with
      | error e => rw [h3] at h; simp at h
      | ok ea =>
        rw [h3] at h
        injection h with h4
        rw [← h4]

/-- A successfully decoded `AddressLocation` has the `locationType` the
discriminator peek reports. -/
theorem decodeAddressLocation_locationType (v : Json) (l : AddressLocation)
    (tag : String) (hpeek : peekLocationType v = .ok tag)
    (h : decodeAddressLocation v = .ok l) : l.locationType = tag := by
  cases v with
  | bool b => simp [decodeAddressLocation] at h
  | num q => simp [decodeAddressLocation] at h
  | str s => simp [decodeAddressLocation] at h
  | arr a => simp [decodeAddressLocation] at h
  | null =>
    simp only [decodeAddressLocation] at h
    simp only [peekLocationType] at hpeek
    injection h with h2
    injection hpeek with h3
    rw [← h2, ← h3]
  | obj fields =>
    simp only [decodeAddressLocation] at h
    simp only [peekLocationType] at hpeek
    cases h1 : decodeLocationBase fields with
    | error e => rw [h1] at h; simp at h
    | ok base =>
      rw [h1] at h
      cases h2 : getAddressField fields "address" with
      | error e => rw [h2] at h; simp at h
      | ok addr =>
        rw [h2] at h
        injection h with h3
        have h4 := decodeLocationBase_locationType fields base h1
        rw [hpeek] at h4
        injection h4 with h5
        rw [← h3]
        exact h5.symm

/-- A successfully decoded `CoordinatesLocation` has the `locationType` the
discriminator peek reports. -/
theorem decodeCoordinatesLocation_locationType (v : Json)
    (l : CoordinatesLocation) (tag : String)
    (hpeek : peekLocationType v = .ok tag)
    (h : decodeCoordinatesLocation v = .ok l) : l.locationType = tag := by
  cases v with
  | bool b => simp [decodeCoordinatesLocation] at h
  | num q => simp [decodeCoordinatesLocation] at h
  | str s => simp [decodeCoordinatesLocation] at h
  | arr a => simp [decodeCoordinatesLocation] at h
  | null =>
    simp only [decodeCoordinatesLocation] at h
    simp only [peekLocationType] at hpeek
    injection h with h2
    injection hpeek with h3
    rw [← h2, ← h3]
  | obj fields =>
    simp only [decodeCoordinatesLocation] at h
    simp only [peekLocationType] at hpeek
    cases h1 : decodeLocationBase fields with
    | error e => rw [h1] at h; simp at h
    | ok base =>
      rw [h1] at h
      cases h2 : getCoordinatesField fields "coordinates" with
      | error e => rw [h2] at h; simp at h
      | ok coords =>
        rw [h2] at h
        injection h with h3
        have h4 := decodeLocationBase_locationType fields base h1
        rw [hpeek] at h4
        injection h4 with h5
        rw [← h3]
        exact h5.symm

/-- A successfully decoded `ShopLocation` has the `locationType` the
discriminator peek reports. -/
theorem decodeShopLocation_locationType (v : Json) (l : ShopLocation)
    (tag : String) (hpeek : peekLocationType v = .ok tag)
    (h : decodeShopLocation v = .ok l) : l.locationType = tag := by
  cases v with
  | bool b => simp [decodeShopLocation] at h
  | num q => simp [decodeShopLocation] at h
  | str s => simp [decodeShopLocation] at h
  | arr a => simp [decodeShopLocation] at h
  | null =>
    simp only [decodeShopLocation] at h
    simp only [peekLocationType] at hpeek
    injection h with h2
    injection hpeek with h3
    rw [← h2, ← h3]
  | obj fields =>
    simp only [decodeShopLocation] at h
    simp only [peekLocationType] at hpeek
    cases h1 : decodeLocationBase fields with
    | error e => rw [h1] at h; simp at h
    | ok base =>
      rw [h1] at h
      cases h2 : getShopField fields "shop" with
      | error e => rw [h2] at h; simp at h
      | ok shop =>
        rw [h2] at h
        injection h with h3
        have h4 := decodeLocationBase_locationType fields base h1
        rw [hpeek] at h4
        injection h4 with h5
        rw [← h3]
        exact h5.symm

/-- `toLocation` never produces the repository's "location not found"
message, whatever the record contains. -/
theorem toLocation_ne_notfound (r : locationRecord) :
    r.toLocation ≠ .error "location not found" := by
  unfold locationRecord.toLocation
  split
  · split
    · exact except_error_ne (by decide)
    · simp
  · split
    · exact except_error_ne (by decide)
    · simp
  · exact except_error_ne (append_len_ne _ _ _ (by decide))

/-- Decoding the marshaled form of an `Address` restores it. -/
theorem decodeAddress_marshal (a : Address) :
    decodeAddress (marshalAddress a) = .ok a := by
  obtain ⟨s1, s2, ci, sp, pc, co⟩ := a
  by_cases h2 : s2 = "" <;> by_cases hs : sp = "" <;>
    (try subst h2) <;> (try subst hs) <;>
    simp +decide [decodeAddress, marshalAddress, getStringField, lookupField,
      bind, Except.bind, pure, Except.pure, *]

/-- Decoding the marshaled form of a `Coordinates` restores it. -/
theorem decodeCoordinates_marshal (c : Coordinates) :
    decodeCoordinates (marshalCoordinates c) = .ok c := by
  obtain ⟨la, lo, al, ac⟩ := c
  cases al <;> cases ac <;>
    simp +decide [decodeCoordinates, marshalCoordinates, getNumField,
      getOptNumField, lookupField, bind, Except.bind, pure, Except.pure]

/-- Decoding the marshaled form of a `Shop` restores it. -/
theorem decodeShop_marshal (s : Shop) :
    decodeShop (marshalShop s) = .ok s := by
  obtain ⟨n, cid, ad⟩ := s
  simp +decide [decodeShop, marshalShop, getStringField, getAddressField,
    lookupField, decodeAddress_marshal, bind, Except.bind, pure, Except.pure]

/-- Decoding the marshaled form of an `AddressLocation` restores it. -/
theorem decodeAddressLocation_marshal (l : AddressLocation) :
    decodeAddressLocation (marshalLocation (.addressLoc l)) = .ok l := by
  obtain ⟨⟨acc, lt, ext⟩, ad⟩ := l
  cases ext <;>
    simp +decide [decodeAddressLocation, marshalLocation, marshalBaseFields,
      decodeLocationBase, getStringField, getExtendedAttributesField,
      getAddressField, lookupField, decodeAddress_marshal]

/-- Decoding the marshaled form of a `CoordinatesLocation` restores it. -/
theorem decodeCoordinatesLocation_marshal (l : CoordinatesLocation) :
    decodeCoordinatesLocation (marshalLocation (.coordinatesLoc l)) = .ok l := by
  obtain ⟨⟨acc, lt, ext⟩, co⟩ := l
  cases ext <;>
    simp +decide [decodeCoordinatesLocation, marshalLocation, marshalBaseFields,
      decodeLocationBase, getStringField, getExtendedAttributesField,
      getCoordinatesField, lookupField, decodeCoordinates_marshal]

/-- Decoding the marshaled form of a `ShopLocation` restores it. -/
theorem decodeShopLocation_marshal (l : ShopLocation) :
    decodeShopLocation (marshalLocation (.shopLoc l)) = .ok l := by
  obtain ⟨⟨acc, lt, ext⟩, sh⟩ := l
  cases ext <;>
    simp +decide [decodeShopLocation, marshalLocation, marshalBaseFields,
      decodeLocationBase, getStringField, getExtendedAttributesField,
      getShopField, lookupField, decodeShop_marshal]

/-- The discriminator peek on a marshaled location reads back its tag. -/
theorem peek_marshal (loc : Location) :
    peekLocationType (marshalLocation loc) = .ok loc.GetLocationType := by
  cases loc with
  | addressLoc l =>
    obtain ⟨⟨acc, lt, ext⟩, ad⟩ := l
    cases ext <;>
      simp +decide [peekLocationType, marshalLocation, marshalBaseFields,
        getStringField, lookupField, Location.GetLocationType]
  | coordinatesLoc l =>
    obtain ⟨⟨acc, lt, ext⟩, co⟩ := l
    cases ext <;>
      simp +decide [peekLocationType, marshalLocation, marshalBaseFields,
        getStringField, lookupField, Location.GetLocationType]
  | shopLoc l =>
    obtain ⟨⟨acc, lt, ext⟩, sh⟩ := l
    cases ext <;>
      simp +decide [peekLocationType, marshalLocation, marshalBaseFields,
        getStringField, lookupField, Location.GetLocationType]

/-- A valid `AddressLocation` carries the "address" tag. -/
theorem validate_address_tag (l : AddressLocation) (h : l.Validate = none) :
    l.locationType = "address" := by
  unfold AddressLocation.Validate at h
  split at h
  · exact Option.noConfusion h
  · split at h
    · exact Option.noConfusion h
    · next hcond => exact not_not.mp hcond

/-- A valid `CoordinatesLocation` carries the "coordinates" tag. -/
theorem validate_coordinates_tag (l : CoordinatesLocation)
    (h : l.Validate = none) : l.locationType = "coordinates" := by
  unfold CoordinatesLocation.Validate at h
  split at h
  · exact Option.noConfusion h
  · split at h
    · exact Option.noConfusion h
    · next hcond => exact not_not.mp hcond

/-- A valid `ShopLocation` carries the "shop" tag. -/
theorem validate_shop_tag (l : ShopLocation) (h : l.Validate = none) :
    l.locationType = "shop" := by
  unfold ShopLocation.Validate at h
  split at h
  · exact Option.noConfusion h
  · split at h
    · exact Option.noConfusion h
    · next hcond => exact not_not.mp hcond

/-- The "address" arm of the discriminator switch. -/
theorem decodeByTag_address (v : Json) :
    decodeByTag "address" v =
      match decodeAddressLocation v with
      | .error e => .error ("failed to unmarshal address location: " ++ e)
      | .ok x => .ok (.addressLoc x) := rfl

/-- The "coordinates" arm of the discriminator switch. -/
theorem decodeByTag_coordinates (v : Json) :
    decodeByTag "coordinates" v =
      match decodeCoordinatesLocation v with
      | .error e => .error ("failed to unmarshal coordinates location: " ++ e)
      | .ok x => .ok (.coordinatesLoc x) := rfl

/-- The "shop" arm of the discriminator switch. -/
theorem decodeByTag_shop (v : Json) :
    decodeByTag "shop" v =
      match decodeShopLocation v with
      | .error e => .error ("failed to unmarshal shop location: " ++ e)
      | .ok x => .ok (.shopLoc x) := rfl

/-- `find?` after the replace-pass of `setKey` finds the new binding. -/
theorem find?_mapped (l : List (String × Json)) (k : String) (v : Json)
    (h : l.any (fun p => p.1 == k)) :
    (l.map (fun p => if p.1 == k then (k, v) else p)).find?
      (fun p => p.1 == k) = some (k, v) := by
  induction l with
  | nil => simp at h
  | cons p ps ih =>
    by_cases hp : p.1 = k
    · have he : (if (p.1 == k) = true then (k, v) else p) = (k, v) := by
        simp [hp]
      rw [List.map_cons, he, List.find?_cons_of_pos]
      simp
    · have he : (if (p.1 == k) = true then (k, v) else p) = p := by
        simp [hp]
      rw [List.map_cons, he, List.find?_cons_of_neg]
      · exact ih (by simpa [hp] using h)
      · simp [hp]

/-- The replace-pass of `setKey` leaves other keys' lookups unchanged. -/
theorem find?_mapped_other (l : List (String × Json)) (k : String) (v : Json)
    (k' : String) (h : k' ≠ k) :
    (l.map (fun p => if p.1 == k then (k, v) else p)).find?
      (fun p => p.1 == k') = l.find? (fun p => p.1 == k') := by
  induction l with
  | nil => simp
  | cons p ps ih =>
    by_cases hp : p.1 = k
    · have he : (if (p.1 == k) = true then (k, v) else p) = (k, v) := by
        simp [hp]
      rw [List.map_cons, he, List.find?_cons_of_neg _ (by simp [Ne.symm h]),
        List.find?_cons_of_neg _ (by simp [hp, Ne.symm h]), ih]
    · have he : (if (p.1 == k) = true then (k, v) else p) = p := by
        simp [hp]
      by_cases hp' : p.1 = k'
      · rw [List.map_cons, he, List.find?_cons_of_pos _ (by simp [hp']),
          List.find?_cons_of_pos _ (by simp [hp'])]
      · rw [List.map_cons, he, List.find?_cons_of_neg _ (by simp [hp']),
          List.find?_cons_of_neg _ (by simp [hp']), ih]

/-- After `m[k] = v`, looking up `k` yields `v`. -/
theorem lookupField_setKey_self (m : List (String × Json)) (k : String)
    (v : Json) : lookupField (setKey m k v) k = some v := by
  unfold setKey
  by_cases hany : m.any (fun p => p.1 == k)
  · have h2 : (m.map (fun p => if p.1 == k then (k, v) else p)).reverse =
        m.reverse.map (fun p => if p.1 == k then (k, v) else p) := by
      rw [List.map_reverse]
    simp only [hany, if_true, lookupField, h2]
    rw [find?_mapped]
    · rfl
    · simpa using hany
  · simp [hany, lookupField, List.reverse_append]

/-- After `m[k] = v`, looking up any other key is unchanged. -/
theorem lookupField_setKey_other (m : List (String × Json)) (k : String)
    (v : Json) (k' : String) (h : k' ≠ k) :
    lookupField (setKey m k v) k' = lookupField m k' := by
  unfold setKey
  by_cases hany : m.any (fun p => p.1 == k)
  · have h2 : (m.map (fun p => if p.1 == k then (k, v) else p)).reverse =
        m.reverse.map (fun p => if p.1 == k then (k, v) else p) := by
      rw [List.map_reverse]
    simp only [hany, if_true, lookupField, h2]
    rw [find?_mapped_other _ _ _ _ h]
  · simp [hany, lookupField, List.reverse_append, Ne.symm h]

/-- The flattened response carries the injected `locationId`. -/
theorem respMap_locationId (loc : Location) (lid : String) :
    lookupField (locationResponseMap loc lid) "locationId" =
      some (.str lid) := by
  unfold locationResponseMap
  split <;>
    first
      | rw [lookupField_setKey_other _ _ _ _ (by decide),
          lookupField_setKey_self]
      | rw [lookupField_setKey_self]

/-- The flattened response's `__typename` per discriminator tag. -/
theorem respMap_typename (loc : Location) (lid : String) :
    (loc.GetLocationType = "address" →
      lookupField (locationResponseMap loc lid) "__typename" =
        some (.str "AddressLocation")) ∧
    (loc.GetLocationType = "coordinates" →
      lookupField (locationResponseMap loc lid) "__typename" =
        some (.str "CoordinatesLocation")) ∧
    (loc.GetLocationType = "shop" →
      lookupField (locationResponseMap loc lid) "__typename" =
        some (.str "ShopLocation")) := by
  refine ⟨?_, ?_, ?_⟩ <;> intro h <;> unfold locationResponseMap <;> rw [h] <;>
    exact lookupField_setKey_self _ _ _

/-- Keys other than the two injected ones read straight from the marshaled
location's fields. -/
theorem respMap_other_keys (loc : Location) (lid : String) (k : String)
    (h1 : k ≠ "locationId") (h2 : k ≠ "__typename") :
    lookupField (locationResponseMap loc lid) k =
      lookupField (jsonObjFields (marshalLocation loc)) k := by
  unfold locationResponseMap
  split <;>
    first
      | rw [lookupField_setKey_other _ _ _ _ h2,
          lookupField_setKey_other _ _ _ _ h1]
      | rw [lookupField_setKey_other _ _ _ _ h1]

/-- A record that converts back to a `Location` has the address or the
coordinates tag. -/
theorem toLocation_ok_tag (r : locationRecord) (loc : Location)
    (h : r.toLocation = .ok loc) :
    loc.GetLocationType = "address" ∨ loc.GetLocationType = "coordinates" := by
  unfold locationRecord.toLocation at h
  split at h
  · rename_i heq
    cases haddr : r.address with
    | none => rw [haddr] at h; exact Except.noConfusion h
    | some a =>
      rw [haddr] at h
      injection h with h2
      rw [← h2]
      left
      exact heq
  · rename_i heq
    cases hco : r.coordinates with
    | none => rw [hco] at h; exact Except.noConfusion h
    | some c =>
      rw [hco] at h
      injection h with h2
      rw [← h2]
      right
      exact heq
  · exact Except.noConfusion h

/-- A successful `Get` yields a location tagged address or coordinates. -/
theorem get_ok_tag (t : Table) (acc lid : String) (loc : Location)
    (h : DynamoDBRepository.Get t acc lid = .ok loc) :
    loc.GetLocationType = "address" ∨ loc.GetLocationType = "coordinates" := by
  unfold DynamoDBRepository.Get at h
  cases hl : lookupItem t lid acc with
  | none => rw [hl] at h; exact Except.noConfusion h
  | some rec =>
    rw [hl] at h
    exact toLocation_ok_tag rec loc h

/-! ## Claim theorems -/

/-- C9: coordinates validation passes on the closed bounds (latitude in
[-90, 90], longitude in [-180, 180], accuracy absent or non-negative), and
latitude 91, longitude -181, accuracy -1 each fail with a message naming
the violated bound. -/
theorem C9_coordinates_validate_bounds :
    (∀ c : Coordinates, -90 ≤ c.latitude → c.latitude ≤ 90 →
      -180 ≤ c.longitude → c.longitude ≤ 180 →
      (c.accuracy = none ∨ ∃ a, c.accuracy = some a ∧ 0 ≤ a) →
      c.Validate = none) ∧
    Coordinates.Validate ⟨91, 0, none, none⟩ =
      some "latitude must be between -90 and 90, got 91.000000" ∧
    Coordinates.Validate ⟨0, -181, none, none⟩ =
      some "longitude must be between -180 and 180, got -181.000000" ∧
    Coordinates.Validate ⟨0, 0, none, some (-1)⟩ =
      some "accuracy must be non-negative, got -1.000000" := by
  refine ⟨?_, by decide, by decide, by decide⟩
  intro c hlat1 hlat2 hlon1 hlon2 hacc
  unfold Coordinates.Validate
  rw [if_neg (by push_neg; exact ⟨hlat1, hlat2⟩ : _)]
  rw [if_neg (by push_neg; exact ⟨hlon1, hlon2⟩ : _)]
  rcases hacc with hnone | ⟨a, hsome, ha⟩
  · rw [hnone]
  · rw [hsome]
    simp [not_lt.2 ha]

/-- C9 witness: a concrete in-bounds coordinate value is accepted. -/
theorem C9_coordinates_validate_bounds_witness :
    ((-90 : ℚ) ≤ 45 ∧ (45 : ℚ) ≤ 90 ∧ (-180 : ℚ) ≤ 90 ∧ (90 : ℚ) ≤ 180 ∧
      (0 : ℚ) ≤ 5) ∧
    Coordinates.Validate ⟨45, 90, none, some 5⟩ = none :=
  ⟨by decide,
    C9_coordinates_validate_bounds.1 ⟨45, 90, none, some 5⟩ (by decide)
      (by decide) (by decide) (by decide) (.inr ⟨5, rfl, by decide⟩)⟩

/-- C10: a coordinates payload that omits `latitude`/`longitude` (or the
whole `coordinates` block) decodes successfully with both fields defaulting
to 0, validation accepts the result, and the decoded value is exactly the
one produced by an explicit `(0, 0)` payload — the absent and zero cases
are indistinguishable after decoding. -/
theorem C10_absent_lat_lon_decodes_as_origin :
    UnmarshalLocation (.json (.obj [("locationType", .str "coordinates"),
        ("accountId", .str "acc-1")])) =
      .ok (.coordinatesLoc ⟨⟨"acc-1", "coordinates", []⟩, ⟨0, 0, none, none⟩⟩) ∧
    UnmarshalLocation (.json (.obj [("locationType", .str "coordinates"),
        ("accountId", .str "acc-1"), ("coordinates", .obj [])])) =
      .ok (.coordinatesLoc ⟨⟨"acc-1", "coordinates", []⟩, ⟨0, 0, none, none⟩⟩) ∧
    UnmarshalLocation (.json (.obj [("locationType", .str "coordinates"),
        ("accountId", .str "acc-1"),
        ("coordinates", .obj [("latitude", .num 0), ("longitude", .num 0)])])) =
      .ok (.coordinatesLoc ⟨⟨"acc-1", "coordinates", []⟩, ⟨0, 0, none, none⟩⟩) ∧
    Location.Validate
      (.coordinatesLoc ⟨⟨"acc-1", "coordinates", []⟩, ⟨0, 0, none, none⟩⟩) =
      none :=
  ⟨rfl, rfl, rfl, rfl⟩

/-- C1: `toLocationRecord` has no case for the shop variant, so `Create`
fails with the "unknown location type" conversion error on a fully valid
`ShopLocation` — for every table state and generated identifier — instead
of storing it. -/
theorem C1_create_valid_shop_fails :
    Location.Validate (.shopLoc ⟨⟨"acc-1", "shop", []⟩,
      ⟨"Coffee Shop", "contact-1",
        ⟨"123 Main St", "", "Springfield", "", "12345", "US"⟩⟩⟩) = none ∧
    ∀ (t : Table) (freshID : String),
      DynamoDBRepository.Create t
        (.shopLoc ⟨⟨"acc-1", "shop", []⟩,
          ⟨"Coffee Shop", "contact-1",
            ⟨"123 Main St", "", "Springfield", "", "12345", "US"⟩⟩⟩) freshID =
        .error "failed to convert location to record: unknown location type" :=
  ⟨rfl, fun _ _ => rfl⟩

/-- C5: `UnmarshalLocation` wraps the underlying parse error on malformed
input, reports "unknown location type" for any discriminator outside
address/coordinates/shop, and otherwise only ever decodes into the concrete
variant selected by the discriminator. -/
theorem C5_unmarshal_location_cases :
    (∀ msg, UnmarshalLocation (.malformed msg) =
      .error ("failed to unmarshal location type: " ++ msg)) ∧
    (∀ (v : Json) (tag : String), peekLocationType v = .ok tag →
      tag ≠ "address" → tag ≠ "coordinates" → tag ≠ "shop" →
      UnmarshalLocation (.json v) =
        .error ("unknown location type: " ++ tag)) ∧
    (∀ (v : Json) (loc : Location), UnmarshalLocation (.json v) = .ok loc →
      (peekLocationType v = .ok "address" ∧
          Location.GetLocationType loc = "address" ∧
          ∃ l, loc = .addressLoc l) ∨
      (peekLocationType v = .ok "coordinates" ∧
          Location.GetLocationType loc = "coordinates" ∧
          ∃ l, loc = .coordinatesLoc l) ∨
      (peekLocationType v = .ok "shop" ∧
          Location.GetLocationType loc = "shop" ∧
          ∃ l, loc = .shopLoc l)) := by
  refine ⟨fun msg => rfl, ?_, ?_⟩
  · intro v tag hpeek h1 h2 h3
    simp only [UnmarshalLocation, hpeek]
    unfold decodeByTag
    split
    · simp_all
    · simp_all
    · simp_all
    · rfl
  · intro v loc h
    cases hpeek : peekLocationType v with
    | error e =>
      simp only [UnmarshalLocation, hpeek] at h
      exact Except.noConfusion h
    | ok tag =>
      simp only [UnmarshalLocation, hpeek] at h
      unfold decodeByTag at h
      split at h
      · cases hdec : decodeAddressLocation v with
        | error e => rw [hdec] at h; exact Except.noConfusion h
        | ok l =>
          rw [hdec] at h
          injection h with hl
          refine .inl ⟨rfl, ?_, l, hl.symm⟩
          rw [← hl]
          exact decodeAddressLocation_locationType v l _ hpeek hdec
      · cases hdec : decodeCoordinatesLocation v with
        | error e => rw [hdec] at h; exact Except.noConfusion h
        | ok l =>
          rw [hdec] at h
          injection h with hl
          refine .inr (.inl ⟨rfl, ?_, l, hl.symm⟩)
          rw [← hl]
          exact decodeCoordinatesLocation_locationType v l _ hpeek hdec
      · cases hdec : decodeShopLocation v with
        | error e => rw [hdec] at h; exact Except.noConfusion h
        | ok l =>
          rw [hdec] at h
          injection h with hl
          refine .inr (.inr ⟨rfl, ?_, l, hl.symm⟩)
          rw [← hl]
          exact decodeShopLocation_locationType v l _ hpeek hdec
      · exact Except.noConfusion h

/-- C5 witness: the "bogus" discriminator is rejected with the
unknown-location-type error, and a concrete shop payload decodes into the
shop variant. -/
theorem C5_unmarshal_location_cases_witness :
    (peekLocationType (.obj [("locationType", .str "bogus")]) = .ok "bogus" ∧
      ("bogus" : String) ≠ "address" ∧ ("bogus" : String) ≠ "coordinates" ∧
      ("bogus" : String) ≠ "shop" ∧
      UnmarshalLocation (.json (.obj [("locationType", .str "bogus")])) =
        .error ("unknown location type: " ++ "bogus")) ∧
    (UnmarshalLocation (.json (.obj [("accountId", .str "acc-1"),
        ("locationType", .str "shop")])) =
      .ok (.shopLoc ⟨⟨"acc-1", "shop", []⟩, ⟨"", "", zeroAddress⟩⟩) ∧
      ((peekLocationType (.obj [("accountId", .str "acc-1"),
          ("locationType", .str "shop")]) = .ok "address" ∧
        Location.GetLocationType
          (.shopLoc ⟨⟨"acc-1", "shop", []⟩, ⟨"", "", zeroAddress⟩⟩) =
          "address" ∧
        ∃ l, (Location.shopLoc ⟨⟨"acc-1", "shop", []⟩, ⟨"", "", zeroAddress⟩⟩) =
          .addressLoc l) ∨
      (peekLocationType (.obj [("accountId", .str "acc-1"),
          ("locationType", .str "shop")]) = .ok "coordinates" ∧
        Location.GetLocationType
          (.shopLoc ⟨⟨"acc-1", "shop", []⟩, ⟨"", "", zeroAddress⟩⟩) =
          "coordinates" ∧
        ∃ l, (Location.shopLoc ⟨⟨"acc-1", "shop", []⟩, ⟨"", "", zeroAddress⟩⟩) =
          .coordinatesLoc l) ∨
      (peekLocationType (.obj [("accountId", .str "acc-1"),
          ("locationType", .str "shop")]) = .ok "shop" ∧
        Location.GetLocationType
          (.shopLoc ⟨⟨"acc-1", "shop", []⟩, ⟨"", "", zeroAddress⟩⟩) = "shop" ∧
        ∃ l, (Location.shopLoc ⟨⟨"acc-1", "shop", []⟩, ⟨"", "", zeroAddress⟩⟩) =
          .shopLoc l))) :=
  ⟨⟨rfl, by decide, by decide, by decide,
      C5_unmarshal_location_cases.2.1 (.obj [("locationType", .str "bogus")])
        "bogus" rfl (by decide) (by decide) (by decide)⟩,
    ⟨rfl,
      C5_unmarshal_location_cases.2.2 (.obj [("accountId", .str "acc-1"),
        ("locationType", .str "shop")])
        (.shopLoc ⟨⟨"acc-1", "shop", []⟩, ⟨"", "", zeroAddress⟩⟩) rfl⟩⟩

/-- C6: `Get` yields "location not found" exactly when the store has no item
under the (locationId, accountId) key; a present record with a nil shape
block for its stored type is an error, and a present record with its shape
block reconstructs the corresponding `Location`. -/
theorem C6_get_characterization :
    (∀ (t : Table) (acc lid : String),
      DynamoDBRepository.Get t acc lid = .error "location not found" ↔
        lookupItem t lid acc = none) ∧
    (∀ (t : Table) (acc lid : String) (rec : locationRecord),
      lookupItem t lid acc = some rec →
      DynamoDBRepository.Get t acc lid = rec.toLocation) ∧
    (∀ rec : locationRecord, rec.locationType = "address" →
      rec.address = none →
      rec.toLocation = .error "address is nil for address location type") ∧
    (∀ rec : locationRecord, rec.locationType = "coordinates" →
      rec.coordinates = none →
      rec.toLocation = .error "coordinates is nil for coordinates location type") ∧
    (∀ (rec : locationRecord) (a : Address), rec.locationType = "address" →
      rec.address = some a →
      rec.toLocation = .ok (.addressLoc
        ⟨⟨rec.accountId, rec.locationType, rec.extendedAttributes⟩, a⟩)) ∧
    (∀ (rec : locationRecord) (c : Coordinates),
      rec.locationType = "coordinates" → rec.coordinates = some c →
      rec.toLocation = .ok (.coordinatesLoc
        ⟨⟨rec.accountId, rec.locationType, rec.extendedAttributes⟩, c⟩)) := by
  refine ⟨?_, ?_, ?_, ?_, ?_, ?_⟩
  · intro t acc lid
    unfold DynamoDBRepository.Get
    cases hl : lookupItem t lid acc with
    | none => simp
    | some rec =>
      constructor
      · intro h2
        exact absurd h2 (toLocation_ne_notfound rec)
      · intro h2
        exact Option.noConfusion h2
  · intro t acc lid rec hl
    unfold DynamoDBRepository.Get
    rw [hl]
  · intro rec hty haddr
    unfold locationRecord.toLocation
    rw [hty, haddr]
    rfl
  · intro rec hty hco
    unfold locationRecord.toLocation
    rw [hty, hco]
    rfl
  · intro rec a hty haddr
    unfold locationRecord.toLocation
    rw [hty, haddr]
    rfl
  · intro rec c hty hco
    unfold locationRecord.toLocation
    rw [hty, hco]
    rfl

/-- C6 witness: a one-record table, exercising the lookup equation, the
reconstruction, and the nil-shape guards on concrete records. -/
theorem C6_get_characterization_witness :
    (lookupItem [⟨"loc-1", "acc-1", "acc-1", "address", [],
        some ⟨"123 Main St", "", "Springfield", "", "12345", "US"⟩, none⟩]
        "loc-1" "acc-1" =
      some ⟨"loc-1", "acc-1", "acc-1", "address", [],
        some ⟨"123 Main St", "", "Springfield", "", "12345", "US"⟩, none⟩ ∧
      DynamoDBRepository.Get
        [⟨"loc-1", "acc-1", "acc-1", "address", [],
          some ⟨"123 Main St", "", "Springfield", "", "12345", "US"⟩, none⟩]
        "acc-1" "loc-1" =
      locationRecord.toLocation
        ⟨"loc-1", "acc-1", "acc-1", "address", [],
          some ⟨"123 Main St", "", "Springfield", "", "12345", "US"⟩, none⟩) ∧
    (locationRecord.toLocation
        ⟨"loc-1", "acc-1", "acc-1", "address", [],
          some ⟨"123 Main St", "", "Springfield", "", "12345", "US"⟩, none⟩ =
      .ok (.addressLoc ⟨⟨"acc-1", "address", []⟩,
        ⟨"123 Main St", "", "Springfield", "", "12345", "US"⟩⟩)) ∧
    (locationRecord.toLocation
        ⟨"loc-2", "acc-1", "acc-1", "address", [], none, none⟩ =
      .error "address is nil for address location type") ∧
    (locationRecord.toLocation
        ⟨"loc-3", "acc-1", "acc-1", "coordinates", [], none, none⟩ =
      .error "coordinates is nil for coordinates location type") ∧
    (locationRecord.toLocation
        ⟨"loc-4", "acc-1", "acc-1", "coordinates", [], none,
          some ⟨1, 2, none, none⟩⟩ =
      .ok (.coordinatesLoc ⟨⟨"acc-1", "coordinates", []⟩, ⟨1, 2, none, none⟩⟩)) :=
  ⟨⟨rfl, C6_get_characterization.2.1 _ "acc-1" "loc-1" _ rfl⟩,
    C6_get_characterization.2.2.2.2.1 _
      ⟨"123 Main St", "", "Springfield", "", "12345", "US"⟩ rfl rfl,
    C6_get_characterization.2.2.1 _ rfl rfl,
    C6_get_characterization.2.2.2.1 _ rfl rfl,
    C6_get_characterization.2.2.2.2.2 _ ⟨1, 2, none, none⟩ rfl rfl⟩

/-- C2: for `Update` and `Delete` the "location not found or access denied"
error occurs exactly when the conditional check fails — no item under the
(locationId, accountId) key, or a stored `accountId` attribute different
from the caller's — and no other store failure is translated to that
message. -/
theorem C2_update_delete_not_found_or_denied :
    (∀ (t : Table) (loc : Location) (lid : String) (rec : locationRecord),
      loc.Validate = none → toLocationRecord loc lid = .ok rec →
      (DynamoDBRepository.Update t loc lid =
          .error "location not found or access denied" ↔
        ¬∃ ex, lookupItem t lid loc.GetAccountID = some ex ∧
          ex.accountId = loc.GetAccountID)) ∧
    (∀ (t : Table) (acc lid : String),
      DynamoDBRepository.Delete t acc lid =
          .error "location not found or access denied" ↔
        ¬∃ ex, lookupItem t lid acc = some ex ∧ ex.accountId = acc) ∧
    (∀ m, DynamoDBRepository.mapUpdateOutcome (.serviceError m) ≠
      .error "location not found or access denied") ∧
    (∀ m, DynamoDBRepository.mapDeleteOutcome (.serviceError m) ≠
      .error "location not found or access denied") := by
  refine ⟨?_, ?_, ?_, ?_⟩
  · intro t loc lid rec hval hrec
    obtain ⟨hPK, hSK, hAcc⟩ := toLocationRecord_ok_fields loc lid rec hrec
    simp only [DynamoDBRepository.Update, hval, hrec]
    simp only [putItemIfOwned, hPK, hSK]
    cases hl : lookupItem t lid loc.GetAccountID with
    | none => simp [DynamoDBRepository.mapUpdateOutcome]
    | some ex =>
      by_cases hacc2 : ex.accountId = loc.GetAccountID
      · simp [DynamoDBRepository.mapUpdateOutcome, hacc2]
      · simp [DynamoDBRepository.mapUpdateOutcome, hacc2]
  · intro t acc lid
    simp only [DynamoDBRepository.Delete, deleteItemIfOwned]
    cases hl : lookupItem t lid acc with
    | none => simp [DynamoDBRepository.mapDeleteOutcome]
    | some ex =>
      by_cases hacc2 : ex.accountId = acc
      · simp [DynamoDBRepository.mapDeleteOutcome, hacc2]
      · simp [DynamoDBRepository.mapDeleteOutcome, hacc2]
  · intro m
    exact except_error_ne (append_head_ne _ _ _ 'f' rfl (by decide))
  · intro m
    exact except_error_ne (append_head_ne _ _ _ 'f' rfl (by decide))

/-- C2 witness: on an empty table a valid update and a delete both fail with
the collapsed not-found-or-denied error. -/
theorem C2_update_delete_not_found_or_denied_witness :
    (Location.Validate (.addressLoc ⟨⟨"acc-1", "address", []⟩,
        ⟨"123 Main St", "", "Springfield", "", "12345", "US"⟩⟩) = none ∧
      toLocationRecord (.addressLoc ⟨⟨"acc-1", "address", []⟩,
        ⟨"123 Main St", "", "Springfield", "", "12345", "US"⟩⟩) "loc-1" =
        .ok ⟨"loc-1", "acc-1", "acc-1", "address", [],
          some ⟨"123 Main St", "", "Springfield", "", "12345", "US"⟩, none⟩ ∧
      DynamoDBRepository.Update [] (.addressLoc ⟨⟨"acc-1", "address", []⟩,
        ⟨"123 Main St", "", "Springfield", "", "12345", "US"⟩⟩) "loc-1" =
        .error "location not found or access denied") ∧
    DynamoDBRepository.Delete [] "acc-1" "loc-1" =
      .error "location not found or access denied" :=
  ⟨⟨rfl, rfl,
      (C2_update_delete_not_found_or_denied.1 []
        (.addressLoc ⟨⟨"acc-1", "address", []⟩,
          ⟨"123 Main St", "", "Springfield", "", "12345", "US"⟩⟩) "loc-1"
        ⟨"loc-1", "acc-1", "acc-1", "address", [],
          some ⟨"123 Main St", "", "Springfield", "", "12345", "US"⟩, none⟩
        rfl rfl).mpr (by simp [lookupItem])⟩,
    (C2_update_delete_not_found_or_denied.2.1 [] "acc-1" "loc-1").mpr
      (by simp [lookupItem])⟩

/-- C8: decoding the JSON produced by encoding any valid `Location` variant
yields an equal `Location` — tag, account id, extended attributes and all
shape fields are preserved. (Validity matters only through its guarantee
that the `locationType` tag matches the variant, which routes the decoder
back into the same variant.) -/
theorem C8_marshal_unmarshal_roundtrip :
    ∀ loc : Location, loc.Validate = none →
      UnmarshalLocation (.json (marshalLocation loc)) = .ok loc := by
  intro loc hval
  cases loc with
  | addressLoc l =>
    have htag : l.locationType = "address" := validate_address_tag l hval
    have hpeek := peek_marshal (.addressLoc l)
    simp only [Location.GetLocationType, htag] at hpeek
    simp only [UnmarshalLocation, hpeek]
    rw [decodeByTag_address, decodeAddressLocation_marshal]
  | coordinatesLoc l =>
    have htag : l.locationType = "coordinates" := validate_coordinates_tag l hval
    have hpeek := peek_marshal (.coordinatesLoc l)
    simp only [Location.GetLocationType, htag] at hpeek
    simp only [UnmarshalLocation, hpeek]
    rw [decodeByTag_coordinates, decodeCoordinatesLocation_marshal]
  | shopLoc l =>
    have htag : l.locationType = "shop" := validate_shop_tag l hval
    have hpeek := peek_marshal (.shopLoc l)
    simp only [Location.GetLocationType, htag] at hpeek
    simp only [UnmarshalLocation, hpeek]
    rw [decodeByTag_shop, decodeShopLocation_marshal]

/-- C8 witness: a concrete shop location with extended attributes and the
optional address fields populated survives the round trip. -/
theorem C8_marshal_unmarshal_roundtrip_witness :
    Location.Validate (.shopLoc ⟨⟨"acc-1", "shop", [("verified", .bool true)]⟩,
      ⟨"Coffee Shop", "contact-1",
        ⟨"123 Main St", "Suite 100", "Springfield", "IL", "12345", "US"⟩⟩⟩) =
      none ∧
    UnmarshalLocation (.json (marshalLocation
      (.shopLoc ⟨⟨"acc-1", "shop", [("verified", .bool true)]⟩,
        ⟨"Coffee Shop", "contact-1",
          ⟨"123 Main St", "Suite 100", "Springfield", "IL", "12345", "US"⟩⟩⟩))) =
      .ok (.shopLoc ⟨⟨"acc-1", "shop", [("verified", .bool true)]⟩,
        ⟨"Coffee Shop", "contact-1",
          ⟨"123 Main St", "Suite 100", "Springfield", "IL", "12345", "US"⟩⟩⟩) :=
  ⟨rfl, C8_marshal_unmarshal_roundtrip _ rfl⟩

/-- C4: when `Handle` routes a get operation and the repository returns a
location, the response is the flattened map of the location's JSON fields
with an injected `locationId` equal to the requested identifier and an
injected `__typename` chosen from the returned variant's `locationType` tag
(`AddressLocation`/`CoordinatesLocation`/`ShopLocation`; a repository read
only ever yields the first two tags). -/
theorem C4_handle_get_flattened_response :
    ∀ (t : Table) (freshID : String) (args : RawInput)
      (gargs : GetLocationArguments) (loc : Location),
      parseGetLocationArguments args = .ok gargs →
      DynamoDBRepository.Get t gargs.accountID gargs.locationID = .ok loc →
      AppSyncHandler.Handle t freshID ⟨"getLocation", args⟩ =
        .ok (.obj (locationResponseMap loc gargs.locationID), t) ∧
      lookupField (locationResponseMap loc gargs.locationID) "locationId" =
        some (.str gargs.locationID) ∧
      (loc.GetLocationType = "address" →
        lookupField (locationResponseMap loc gargs.locationID) "__typename" =
          some (.str "AddressLocation")) ∧
      (loc.GetLocationType = "coordinates" →
        lookupField (locationResponseMap loc gargs.locationID) "__typename" =
          some (.str "CoordinatesLocation")) ∧
      (loc.GetLocationType = "shop" →
        lookupField (locationResponseMap loc gargs.locationID) "__typename" =
          some (.str "ShopLocation")) ∧
      (∀ k, k ≠ "locationId" → k ≠ "__typename" →
        lookupField (locationResponseMap loc gargs.locationID) k =
          lookupField (jsonObjFields (marshalLocation loc)) k) ∧
      (loc.GetLocationType = "address" ∨
        loc.GetLocationType = "coordinates") := by
  intro t freshID args gargs loc hargs hget
  refine ⟨?_, respMap_locationId loc gargs.locationID,
    (respMap_typename loc gargs.locationID).1,
    (respMap_typename loc gargs.locationID).2.1,
    (respMap_typename loc gargs.locationID).2.2,
    fun k h1 h2 => respMap_other_keys loc gargs.locationID k h1 h2,
    get_ok_tag t gargs.accountID gargs.locationID loc hget⟩
  simp only [AppSyncHandler.Handle, AppSyncHandler.handleGetLocation,
    hargs, hget]
  rfl

/-- C4 witness: a one-record table served through the full `Handle` path. -/
theorem C4_handle_get_flattened_response_witness :
    parseGetLocationArguments (.json (.obj [("accountId", .str "acc-1"),
        ("locationId", .str "loc-1")])) =
      .ok ⟨"acc-1", "loc-1"⟩ ∧
    DynamoDBRepository.Get
      [⟨"loc-1", "acc-1", "acc-1", "address", [],
        some ⟨"123 Main St", "", "Springfield", "", "12345", "US"⟩, none⟩]
      "acc-1" "loc-1" =
      .ok (.addressLoc ⟨⟨"acc-1", "address", []⟩,
        ⟨"123 Main St", "", "Springfield", "", "12345", "US"⟩⟩) ∧
    AppSyncHandler.Handle
      [⟨"loc-1", "acc-1", "acc-1", "address", [],
        some ⟨"123 Main St", "", "Springfield", "", "12345", "US"⟩, none⟩]
      "fresh-id"
      ⟨"getLocation", .json (.obj [("accountId", .str "acc-1"),
        ("locationId", .str "loc-1")])⟩ =
      .ok (.obj (locationResponseMap
        (.addressLoc ⟨⟨"acc-1", "address", []⟩,
          ⟨"123 Main St", "", "Springfield", "", "12345", "US"⟩⟩) "loc-1"),
        [⟨"loc-1", "acc-1", "acc-1", "address", [],
          some ⟨"123 Main St", "", "Springfield", "", "12345", "US"⟩, none⟩]) :=
  ⟨rfl, rfl,
    (C4_handle_get_flattened_response
      [⟨"loc-1", "acc-1", "acc-1", "address", [],
        some ⟨"123 Main St", "", "Springfield", "", "12345", "US"⟩, none⟩]
      "fresh-id"
      (.json (.obj [("accountId", .str "acc-1"),
        ("locationId", .str "loc-1")]))
      ⟨"acc-1", "loc-1"⟩
      (.addressLoc ⟨⟨"acc-1", "address", []⟩,
        ⟨"123 Main St", "", "Springfield", "", "12345", "US"⟩⟩)
      rfl rfl).1⟩

/-- A query for an account with no stored records returns the empty page
and no last-evaluated key. -/
theorem gsiQuery_no_match (t : Table) (acc : String) (limit : ℕ)
    (sk : Option LastEvaluatedKey) (h : ∀ rec ∈ t, rec.accountId ≠ acc) :
    gsiQuery t acc limit sk = ([], none) := by
  unfold gsiQuery
  have hf : t.filter (fun r => r.accountId == acc) = [] := by
    simp only [List.filter_eq_nil_iff, beq_iff_eq]
    exact h
  rw [hf]
  cases sk <;> simp [List.mergeSort]

/-- C3: `List` queries the GSI with limit 20 when the caller supplies no
limit (nil options or nil limit pointer); the outgoing cursor is present
exactly when the query reports a last-evaluated key; and for an account
with no stored records the result is the empty location list with no
cursor and no error. -/
theorem C3_list_default_limit_cursor_empty :
    (∀ (t : Table) (acc : String),
      DynamoDBRepository.ListOp t acc none =
        DynamoDBRepository.listFromQuery t acc 20 none) ∧
    (∀ (t : Table) (acc : String),
      DynamoDBRepository.ListOp t acc (some ⟨none, none⟩) =
        DynamoDBRepository.listFromQuery t acc 20 none) ∧
    (∀ (t : Table) (acc : String) (limit : ℤ)
      (sk : Option LastEvaluatedKey) (r : ListResult),
      DynamoDBRepository.listFromQuery t acc limit sk = .ok r →
      r.nextCursor.isSome = (gsiQuery t acc limit.toNat sk).2.isSome) ∧
    (∀ (t : Table) (acc : String) (lopt : Option ℤ),
      (∀ rec ∈ t, rec.accountId ≠ acc) →
      DynamoDBRepository.ListOp t acc (some ⟨lopt, none⟩) = .ok ⟨[], none⟩ ∧
      DynamoDBRepository.ListOp t acc none = .ok ⟨[], none⟩) := by
  refine ⟨fun t acc => rfl, fun t acc => rfl, ?_, ?_⟩
  · intro t acc limit sk r h
    cases hq : gsiQuery t acc limit.toNat sk with
    | mk items lek =>
      simp only [DynamoDBRepository.listFromQuery, hq] at h
      cases hconv : DynamoDBRepository.convertItems items with
      | error e => rw [hconv] at h; exact Except.noConfusion h
      | ok locs =>
        rw [hconv] at h
        injection h with h2
        rw [← h2]
        cases lek with
        | none => rfl
        | some k => rfl
  · intro t acc lopt hno
    have hq20 := gsiQuery_no_match t acc (Int.toNat 20) none hno
    constructor
    · cases lopt with
      | none =>
        simp only [DynamoDBRepository.ListOp, DynamoDBRepository.resolveLimit,
          DynamoDBRepository.listFromQuery, DynamoDBRepository.defaultLimit,
          hq20]
        rfl
      | some l =>
        have hq := gsiQuery_no_match t acc (l.toNat) none hno
        simp only [DynamoDBRepository.ListOp, DynamoDBRepository.resolveLimit,
          DynamoDBRepository.listFromQuery, hq]
        rfl
    · simp only [DynamoDBRepository.ListOp, DynamoDBRepository.resolveLimit,
        DynamoDBRepository.listFromQuery, DynamoDBRepository.defaultLimit,
        hq20]
      rfl

/-- C3 witness: a concrete empty query and a one-record table owned by a
different account. -/
theorem C3_list_default_limit_cursor_empty_witness :
    (DynamoDBRepository.listFromQuery [] "acc-1" 20 none =
        .ok ⟨[], none⟩ ∧
      (ListResult.nextCursor ⟨[], none⟩).isSome =
        (gsiQuery [] "acc-1" (Int.toNat 20) none).2.isSome) ∧
    ((∀ rec ∈ [(⟨"loc-9", "acc-2", "acc-2", "address", [], none,
        none⟩ : locationRecord)], rec.accountId ≠ "acc-1") ∧
      DynamoDBRepository.ListOp
        [⟨"loc-9", "acc-2", "acc-2", "address", [], none, none⟩]
        "acc-1" (some ⟨none, none⟩) = .ok ⟨[], none⟩ ∧
      DynamoDBRepository.ListOp
        [⟨"loc-9", "acc-2", "acc-2", "address", [], none, none⟩]
        "acc-1" none = .ok ⟨[], none⟩) :=
  ⟨by
      have hq := gsiQuery_no_match [] "acc-1" (Int.toNat 20) none
        (by intro rec hrec; cases hrec)
      have h0 : DynamoDBRepository.listFromQuery [] "acc-1" 20 none =
          .ok ⟨[], none⟩ := by
        simp only [DynamoDBRepository.listFromQuery, hq]
        rfl
      exact ⟨h0, C3_list_default_limit_cursor_empty.2.2.1 [] "acc-1" 20 none
        ⟨[], none⟩ h0⟩,
    by
      have hno : ∀ rec ∈ [(⟨"loc-9", "acc-2", "acc-2", "address", [], none,
          none⟩ : locationRecord)], rec.accountId ≠ "acc-1" := by
        intro rec hrec
        rw [List.mem_singleton] at hrec
        subst hrec
        decide
      exact ⟨hno,
        (C3_list_default_limit_cursor_empty.2.2.2
          [⟨"loc-9", "acc-2", "acc-2", "address", [], none, none⟩]
          "acc-1" none hno).1,
        (C3_list_default_limit_cursor_empty.2.2.2
          [⟨"loc-9", "acc-2", "acc-2", "address", [], none, none⟩]
          "acc-1" none hno).2⟩⟩

end LocationLambda

namespace LocationLambda

theorem hexVal_hexDigit (n : ℕ) (h : n < 16) :
    hexVal (hexDigitChar n) = some n := by
  have hall : ∀ m, m < 16 → hexVal (hexDigitChar m) = some m := by decide
  exact hall n h

theorem unescapeAux_cons (f : ℕ) (c : Char) (cs : List Char) :
    unescapeAux (f + 1) (c :: cs) =
      (if c = '"' then some ([], cs)
       else if c = '\\' then
         (cs.head?).bind fun e =>
           if e = '"' ∨ e = '\\' ∨ e = '/' then
             (unescapeAux f cs.tail).map (fun p => (e :: p.1, p.2))
           else if e = 'n' then
             (unescapeAux f cs.tail).map (fun p => ('\n' :: p.1, p.2))
           else if e = 'r' then
             (unescapeAux f cs.tail).map (fun p => ('\r' :: p.1, p.2))
           else if e = 't' then
             (unescapeAux f cs.tail).map (fun p => ('\t' :: p.1, p.2))
           else if e = 'b' then
             (unescapeAux f cs.tail).map (fun p => ('\x08' :: p.1, p.2))
           else if e = 'f' then
             (unescapeAux f cs.tail).map (fun p => ('\x0c' :: p.1, p.2))
           else if e = 'u' then
             ((cs.tail).head?).bind fun h1 =>
               (((cs.tail).tail).head?).bind fun h2 =>
                 ((((cs.tail).tail).tail).head?).bind fun h3 =>
                   (((((cs.tail).tail).tail).tail).head?).bind fun h4 =>
                     (hexVal h1).bind fun a =>
                       (hexVal h2).bind fun b =>
                         (hexVal h3).bind fun c' =>
                           (hexVal h4).bind fun d =>
                             if 0xD800 ≤ ((a * 16 + b) * 16 + c') * 16 + d ∧
                                 ((a * 16 + b) * 16 + c') * 16 + d < 0xE000 then
                               none
                             else
                               (unescapeAux f
                                 ((((cs.tail).tail).tail).tail).tail).map
                                 (fun p =>
                                   (Char.ofNat
                                     (((a * 16 + b) * 16 + c') * 16 + d)
                                     :: p.1, p.2))
           else none
       else (unescapeAux f cs).map (fun p => (c :: p.1, p.2))) := rfl

theorem uA_quote (f : ℕ) (t : List Char) :
    unescapeAux (f + 1) ('"' :: t) = some ([], t) := rfl

theorem uA_esc_n (f : ℕ) (t : List Char) :
    unescapeAux (f + 1) ('\\' :: 'n' :: t) =
      (unescapeAux f t).map (fun p => ('\n' :: p.1, p.2)) := rfl

theorem uA_esc_r (f : ℕ) (t : List Char) :
    unescapeAux (f + 1) ('\\' :: 'r' :: t) =
      (unescapeAux f t).map (fun p => ('\r' :: p.1, p.2)) := rfl

theorem uA_esc_t (f : ℕ) (t : List Char) :
    unescapeAux (f + 1) ('\\' :: 't' :: t) =
      (unescapeAux f t).map (fun p => ('\t' :: p.1, p.2)) := rfl

theorem uA_esc_self (f : ℕ) (c : Char) (t : List Char)
    (h : c = '"' ∨ c = '\\' ∨ c = '/') :
    unescapeAux (f + 1) ('\\' :: c :: t) =
      (unescapeAux f t).map (fun p => (c :: p.1, p.2)) := by
  rw [unescapeAux_cons, if_neg (by decide), if_pos (by decide)]
  simp only [List.head?_cons, List.tail_cons, Option.some_bind]
  rw [if_pos h]

theorem uA_plain (f : ℕ) (c : Char) (t : List Char)
    (hq : ¬c = '"') (hb : ¬c = '\\') :
    unescapeAux (f + 1) (c :: t) =
      (unescapeAux f t).map (fun p => (c :: p.1, p.2)) := by
  rw [unescapeAux_cons, if_neg hq, if_neg hb]

theorem uA_esc_u (f : ℕ) (h1 h2 h3 h4 : Char) (a b a3 a4 code : ℕ)
    (t : List Char)
    (e1 : hexVal h1 = some a) (e2 : hexVal h2 = some b)
    (e3 : hexVal h3 = some a3) (e4 : hexVal h4 = some a4)
    (hcode : ((a * 16 + b) * 16 + a3) * 16 + a4 = code)
    (hsur : ¬(0xD800 ≤ code ∧ code < 0xE000)) :
    unescapeAux (f + 1) ('\\' :: 'u' :: h1 :: h2 :: h3 :: h4 :: t) =
      (unescapeAux f t).map (fun p => (Char.ofNat code :: p.1, p.2)) := by
  rw [unescapeAux_cons, if_neg (by decide), if_pos (by decide)]
  simp only [List.head?_cons, List.tail_cons, Option.some_bind]
  rw [if_neg (by decide), if_neg (by decide), if_neg (by decide),
    if_neg (by decide), if_neg (by decide), if_neg (by decide),
    if_pos (by decide)]
  rw [e1]
  simp only [Option.some_bind]
  rw [e2]
  simp only [Option.some_bind]
  rw [e3]
  simp only [Option.some_bind]
  rw [e4]
  simp only [Option.some_bind]
  rw [hcode, if_neg hsur]

theorem unescape_escape_aux :
    ∀ (s rest : List Char) (fuel : ℕ),
      ((s.map escapeChar).flatten ++ '"' :: rest).length ≤ fuel →
      unescapeAux fuel ((s.map escapeChar).flatten ++ '"' :: rest) =
        some (s, rest) := by
  intro s
  induction s with
  | nil =>
    intro rest fuel h
    simp only [List.map_nil, List.flatten_nil, List.nil_append] at h ⊢
    cases fuel with
    | zero => exact absurd h (by simp only [List.length_cons]; omega)
    | succ f => exact uA_quote f rest
  | cons c cs ih =>
    intro rest fuel h
    rw [List.map_cons, List.flatten_cons, List.append_assoc] at h ⊢
    by_cases hq : c = '"' ∨ c = '\\'
    · have he : escapeChar c = ['\\', c] := by
        unfold escapeChar
        rw [if_pos hq]
      rw [he, List.cons_append, List.cons_append, List.nil_append] at h ⊢
      cases fuel with
      | zero => exact absurd h (by simp only [List.length_cons]; omega)
      | succ f =>
        rw [uA_esc_self f c _ (by rcases hq with h0 | h0
                                  · exact .inl h0
                                  · exact .inr (.inl h0))]
        rw [ih rest f (by simp only [List.length_cons] at h; omega)]
        rfl
    · by_cases hn : c = '\n'
      · subst hn
        rw [show escapeChar '\n' = ['\\', 'n'] from rfl,
          List.cons_append, List.cons_append, List.nil_append] at h ⊢
        cases fuel with
        | zero => exact absurd h (by simp only [List.length_cons]; omega)
        | succ f =>
          rw [uA_esc_n f _]
          rw [ih rest f (by simp only [List.length_cons] at h; omega)]
          rfl
      · by_cases hr : c = '\r'
        · subst hr
          rw [show escapeChar '\r' = ['\\', 'r'] from rfl,
            List.cons_append, List.cons_append, List.nil_append] at h ⊢
          cases fuel with
          | zero => exact absurd h (by simp only [List.length_cons]; omega)
          | succ f =>
            rw [uA_esc_r f _]
            rw [ih rest f (by simp only [List.length_cons] at h; omega)]
            rfl
        · by_cases ht : c = '\t'
          · subst ht
            rw [show escapeChar '\t' = ['\\', 't'] from rfl,
              List.cons_append, List.cons_append, List.nil_append] at h ⊢
            cases fuel with
            | zero => exact absurd h (by simp only [List.length_cons]; omega)
            | succ f =>
              rw [uA_esc_t f _]
              rw [ih rest f (by simp only [List.length_cons] at h; omega)]
              rfl
          · by_cases hu : c.toNat < 0x20 ∨ c = '<' ∨ c = '>' ∨ c = '&'
            · have hb : c.toNat < 256 := by
                rcases hu with h0 | h0 | h0 | h0
                · omega
                · subst h0; decide
                · subst h0; decide
                · subst h0; decide
              have he : escapeChar c = ['\\', 'u', '0', '0',
                  hexDigitChar (c.toNat / 16), hexDigitChar (c.toNat % 16)] := by
                unfold escapeChar
                rw [if_neg hq, if_neg hn, if_neg hr, if_neg ht, if_pos hu]
              rw [he, List.cons_append, List.cons_append, List.cons_append,
                List.cons_append, List.cons_append, List.cons_append,
                List.nil_append] at h ⊢
              cases fuel with
              | zero => exact absurd h (by simp only [List.length_cons]; omega)
              | succ f =>
                rw [uA_esc_u f '0' '0' (hexDigitChar (c.toNat / 16))
                  (hexDigitChar (c.toNat % 16)) 0 0 (c.toNat / 16)
                  (c.toNat % 16) c.toNat _ rfl rfl
                  (hexVal_hexDigit _ (by omega))
                  (hexVal_hexDigit _ (by omega))
                  (by omega) (by omega)]
                simp only [Char.ofNat_toNat]
                rw [ih rest f (by simp only [List.length_cons] at h; omega)]
                rfl
            · by_cases h2k : c.toNat = 0x2028 ∨ c.toNat = 0x2029
              · have he : escapeChar c = ['\\', 'u', '2', '0', '2',
                    hexDigitChar (c.toNat % 16)] := by
                  unfold escapeChar
                  rw [if_neg hq, if_neg hn, if_neg hr, if_neg ht, if_neg hu,
                    if_pos h2k]
                rw [he, List.cons_append, List.cons_append, List.cons_append,
                  List.cons_append, List.cons_append, List.cons_append,
                  List.nil_append] at h ⊢
                cases fuel with
                | zero =>
                  exact absurd h (by simp only [List.length_cons]; omega)
                | succ f =>
                  rw [uA_esc_u f '2' '0' '2' (hexDigitChar (c.toNat % 16))
                    2 0 2 (c.toNat % 16) c.toNat _ rfl rfl rfl
                    (hexVal_hexDigit _ (by omega))
                    (by omega) (by omega)]
                  simp only [Char.ofNat_toNat]
                  rw [ih rest f (by simp only [List.length_cons] at h; omega)]
                  rfl
              · have he : escapeChar c = [c] := by
                  unfold escapeChar
                  rw [if_neg hq, if_neg hn, if_neg hr, if_neg ht, if_neg hu,
                    if_neg h2k]
                rw [he, List.cons_append, List.nil_append] at h ⊢
                cases fuel with
                | zero =>
                  exact absurd h (by simp only [List.length_cons]; omega)
                | succ f =>
                  rw [uA_plain f c _ (fun hh => hq (.inl hh))
                    (fun hh => hq (.inr hh))]
                  rw [ih rest f (by simp only [List.length_cons] at h; omega)]
                  rfl

theorem unescape_escape (s rest : List Char) :
    unescapeString ((s.map escapeChar).flatten ++ '"' :: rest) =
      some (s, rest) :=
  unescape_escape_aux s rest _ le_rfl

theorem skipWs_cons (c : Char) (cs : List Char)
    (h : (c == ' ' || c == '\t' || c == '\n' || c == '\r') = false) :
    skipWs (c :: cs) = c :: cs := by
  simp only [skipWs, List.dropWhile_cons, h, Bool.false_eq_true, if_false]

theorem parseCursorFields_succ (fuel : ℕ) (cs : List Char) :
    parseCursorFields (fuel + 1) cs =
      (match skipWs cs with
       | [] => none
       | c :: cs1 =>
         if c = rbrace then some ([], cs1)
         else if c = '"' then
           match unescapeString cs1 with
           | none => none
           | some (key, rest1) =>
             match skipWs rest1 with
             | ':' :: rest2 =>
               match skipWs rest2 with
               | '"' :: rest3 =>
                 match unescapeString rest3 with
                 | none => none
                 | some (value, rest4) =>
                   match skipWs rest4 with
                   | ',' :: rest5 =>
                       (parseCursorFields fuel rest5).map
                         (fun p =>
                           ((String.mk key, String.mk value) :: p.1, p.2))
                   | c2 :: rest5 =>
                       if c2 = rbrace then
                         some ([(String.mk key, String.mk value)], rest5)
                       else none
                   | [] => none
               | _ => none
             | _ => none
         else none) := rfl

theorem skipWs_quote (cs : List Char) : skipWs ('"' :: cs) = '"' :: cs :=
  skipWs_cons _ _ (by decide)

theorem skipWs_colon (cs : List Char) : skipWs (':' :: cs) = ':' :: cs :=
  skipWs_cons _ _ (by decide)

theorem skipWs_comma (cs : List Char) : skipWs (',' :: cs) = ',' :: cs :=
  skipWs_cons _ _ (by decide)

theorem skipWs_rbrace (cs : List Char) : skipWs (rbrace :: cs) = rbrace :: cs :=
  skipWs_cons _ _ (by decide)

theorem skipWs_lbrace (cs : List Char) : skipWs (lbrace :: cs) = lbrace :: cs :=
  skipWs_cons _ _ (by decide)

theorem parseCursorFields_fields :
    ∀ (fs : List (String × String)) (fuel : ℕ), fs.length + 1 ≤ fuel →
      parseCursorFields fuel (fieldsChars fs) = some (fs, []) := by
  intro fs
  induction fs using fieldsChars.induct with
  | case1 =>
    intro fuel h
    cases fuel with
    | zero => omega
    | succ g => rfl
  | case2 f =>
    obtain ⟨⟨kd⟩, ⟨vd⟩⟩ := f
    intro fuel h
    cases fuel with
    | zero => omega
    | succ g =>
      simp only [fieldsChars, fieldChars, quoteChars, List.append_assoc,
        List.cons_append, List.nil_append, parseCursorFields_succ,
        skipWs_quote, skipWs_colon, skipWs_rbrace, unescape_escape]
      rfl
  | case3 f f2 fs ih =>
    obtain ⟨⟨kd⟩, ⟨vd⟩⟩ := f
    intro fuel h
    cases fuel with
    | zero => omega
    | succ g =>
      simp only [fieldsChars, fieldChars, quoteChars, List.append_assoc,
        List.cons_append, List.nil_append, parseCursorFields_succ,
        skipWs_quote, skipWs_colon, skipWs_comma, unescape_escape]
      rw [ih g (by simp only [List.length_cons] at h ⊢; omega)]
      rfl

theorem fieldsChars_len (fs : List (String × String)) :
    fs.length ≤ (fieldsChars fs).length := by
  induction fs using fieldsChars.induct with
  | case1 => simp [fieldsChars]
  | case2 f => simp [fieldsChars]
  | case3 f f2 fs ih =>
    simp only [fieldsChars, List.length_append, List.length_cons] at ih ⊢
    omega

theorem parseCursorJson_marshal (c : paginationCursor) :
    parseCursorJson (jsonMarshalCursor c) = .ok c := by
  obtain ⟨pk, sk, acc⟩ := c
  simp only [jsonMarshalCursor, objChars, parseCursorJson, skipWs_lbrace]
  rw [parseCursorFields_fields _ _
    (Nat.add_le_add_right (fieldsChars_len _) 1)]
  rfl

theorem char_toNat_valid (c : Char) :
    c.toNat < 0xD800 ∨ (0xDFFF < c.toNat ∧ c.toNat < 0x110000) := by
  have h := c.valid
  rcases h with h | ⟨h1, h2⟩
  · left
    exact h
  · right
    exact ⟨h1, h2⟩

theorem utf8DecodeChar_encode (c : Char) (rest : List ℕ) :
    utf8DecodeChar (utf8EncodeChar c ++ rest) = some (c, rest) := by
  have hv := char_toNat_valid c
  by_cases h1 : c.toNat < 0x80
  · have he : utf8EncodeChar c = [c.toNat] := by
      unfold utf8EncodeChar
      rw [if_pos h1]
    rw [he, List.cons_append, List.nil_append, utf8DecodeChar, if_pos h1,
      Char.ofNat_toNat]
  · by_cases h2 : c.toNat < 0x800
    · have he : utf8EncodeChar c =
          [0xC0 + c.toNat / 64, 0x80 + c.toNat % 64] := by
        unfold utf8EncodeChar
        rw [if_neg h1, if_pos h2]
      rw [he]
      simp only [List.cons_append, List.nil_append]
      rw [utf8DecodeChar, if_neg (by omega), if_neg (by omega),
        if_pos (by omega)]
      simp only [List.head?_cons, List.tail_cons, Option.some_bind]
      rw [if_pos (by omega : (0x80:ℕ) ≤ 0x80 + c.toNat % 64 ∧
        0x80 + c.toNat % 64 < 0xC0)]
      rw [if_neg (by omega :
        ¬((0xC0 + c.toNat / 64 - 0xC0) * 64 + (0x80 + c.toNat % 64 - 0x80) <
          0x80))]
      have hn : (0xC0 + c.toNat / 64 - 0xC0) * 64 +
          (0x80 + c.toNat % 64 - 0x80) = c.toNat := by omega
      rw [hn, Char.ofNat_toNat]
    · by_cases h3 : c.toNat < 0x10000
      · have he : utf8EncodeChar c = [0xE0 + c.toNat / 4096,
            0x80 + (c.toNat / 64) % 64, 0x80 + c.toNat % 64] := by
          unfold utf8EncodeChar
          rw [if_neg h1, if_neg h2, if_pos h3]
        rw [he]
        simp only [List.cons_append, List.nil_append]
        rw [utf8DecodeChar, if_neg (by omega), if_neg (by omega),
          if_neg (by omega), if_pos (by omega)]
        simp only [List.head?_cons, List.tail_cons, Option.some_bind]
        rw [if_pos (by omega :
          ((0x80:ℕ) ≤ 0x80 + (c.toNat / 64) % 64 ∧
            0x80 + (c.toNat / 64) % 64 < 0xC0) ∧
          (0x80:ℕ) ≤ 0x80 + c.toNat % 64 ∧ 0x80 + c.toNat % 64 < 0xC0)]
        rw [if_neg (by omega :
          ¬((0xE0 + c.toNat / 4096 - 0xE0) * 4096 +
              (0x80 + (c.toNat / 64) % 64 - 0x80) * 64 +
              (0x80 + c.toNat % 64 - 0x80) < 0x800 ∨
            (0xD800 ≤ (0xE0 + c.toNat / 4096 - 0xE0) * 4096 +
                (0x80 + (c.toNat / 64) % 64 - 0x80) * 64 +
                (0x80 + c.toNat % 64 - 0x80) ∧
              (0xE0 + c.toNat / 4096 - 0xE0) * 4096 +
                (0x80 + (c.toNat / 64) % 64 - 0x80) * 64 +
                (0x80 + c.toNat % 64 - 0x80) < 0xE000)))]
        have hn : (0xE0 + c.toNat / 4096 - 0xE0) * 4096 +
            (0x80 + (c.toNat / 64) % 64 - 0x80) * 64 +
            (0x80 + c.toNat % 64 - 0x80) = c.toNat := by omega
        rw [hn, Char.ofNat_toNat]
      · have h4 : c.toNat < 0x110000 := by omega
        have he : utf8EncodeChar c = [0xF0 + c.toNat / 262144,
            0x80 + (c.toNat / 4096) % 64, 0x80 + (c.toNat / 64) % 64,
            0x80 + c.toNat % 64] := by
          unfold utf8EncodeChar
          rw [if_neg h1, if_neg h2, if_neg h3]
        rw [he]
        simp only [List.cons_append, List.nil_append]
        rw [utf8DecodeChar, if_neg (by omega), if_neg (by omega),
          if_neg (by omega), if_neg (by omega), if_pos (by omega)]
        simp only [List.head?_cons, List.tail_cons, Option.some_bind]
        rw [if_pos (by omega :
          ((0x80:ℕ) ≤ 0x80 + (c.toNat / 4096) % 64 ∧
            0x80 + (c.toNat / 4096) % 64 < 0xC0) ∧
          ((0x80:ℕ) ≤ 0x80 + (c.toNat / 64) % 64 ∧
            0x80 + (c.toNat / 64) % 64 < 0xC0) ∧
          (0x80:ℕ) ≤ 0x80 + c.toNat % 64 ∧ 0x80 + c.toNat % 64 < 0xC0)]
        rw [if_neg (by omega :
          ¬((0xF0 + c.toNat / 262144 - 0xF0) * 262144 +
              (0x80 + (c.toNat / 4096) % 64 - 0x80) * 4096 +
              (0x80 + (c.toNat / 64) % 64 - 0x80) * 64 +
              (0x80 + c.toNat % 64 - 0x80) < 0x10000 ∨
            0x110000 ≤ (0xF0 + c.toNat / 262144 - 0xF0) * 262144 +
              (0x80 + (c.toNat / 4096) % 64 - 0x80) * 4096 +
              (0x80 + (c.toNat / 64) % 64 - 0x80) * 64 +
              (0x80 + c.toNat % 64 - 0x80)))]
        have hn : (0xF0 + c.toNat / 262144 - 0xF0) * 262144 +
            (0x80 + (c.toNat / 4096) % 64 - 0x80) * 4096 +
            (0x80 + (c.toNat / 64) % 64 - 0x80) * 64 +
            (0x80 + c.toNat % 64 - 0x80) = c.toNat := by omega
        rw [hn, Char.ofNat_toNat]

theorem utf8EncodeChar_ne_nil (c : Char) : utf8EncodeChar c ≠ [] := by
  by_cases h1 : c.toNat < 0x80 <;> by_cases h2 : c.toNat < 0x800 <;>
    by_cases h3 : c.toNat < 0x10000 <;> simp [utf8EncodeChar, h1, h2, h3]

theorem utf8_aux_roundtrip (s : List Char) :
    ∀ fuel : ℕ, ((s.map utf8EncodeChar).flatten).length ≤ fuel →
    utf8DecodeAux fuel ((s.map utf8EncodeChar).flatten) = some s := by
  induction s with
  | nil =>
    intro fuel h
    cases fuel <;> rfl
  | cons c cs ih =>
    intro fuel h
    rw [List.map_cons, List.flatten_cons] at h ⊢
    obtain ⟨b, bs, hb⟩ : ∃ b bs, utf8EncodeChar c = b :: bs := by
      cases he : utf8EncodeChar c with
      | nil => exact absurd he (utf8EncodeChar_ne_nil c)
      | cons b bs => exact ⟨b, bs, rfl⟩
    cases fuel with
    | zero =>
      exfalso
      rw [hb] at h
      simp at h
    | succ f =>
      rw [hb, List.cons_append, utf8DecodeAux, ← List.cons_append, ← hb,
        utf8DecodeChar_encode]
      simp only [Option.some_bind]
      have hf : ((cs.map utf8EncodeChar).flatten).length ≤ f := by
        rw [hb] at h
        simp only [List.cons_append, List.length_cons, List.length_append] at h
        omega
      rw [ih f hf]
      rfl

theorem utf8_decode_encode (s : String) :
    utf8Decode (utf8Encode s) = some s.data := by
  unfold utf8Decode utf8Encode
  exact utf8_aux_roundtrip s.data _ le_rfl

theorem b64CharVal_alpha (n : ℕ) (h : n < 64) :
    b64CharVal (b64AlphaChar n) = some n := by
  have hall : ∀ m, m < 64 → b64CharVal (b64AlphaChar m) = some m := by decide
  exact hall n h

theorem b64AlphaChar_ne_pad (n : ℕ) (h : n < 64) : b64AlphaChar n ≠ '=' := by
  have hall : ∀ m, m < 64 → b64AlphaChar m ≠ '=' := by decide
  exact hall n h

theorem b64_roundtrip (bytes : List ℕ) (h : ∀ b ∈ bytes, b < 256) :
    b64DecodeChars (b64EncodeChars bytes) = .ok bytes := by
  induction bytes using b64EncodeChars.induct with
  | case1 => rfl
  | case2 a =>
    have ha : a < 256 := h a (by simp)
    simp only [b64EncodeChars, b64DecodeChars,
      b64CharVal_alpha (a / 4) (by omega),
      b64CharVal_alpha ((a % 4) * 16) (by omega)]
    split
    · simp only [Except.ok.injEq, List.cons.injEq, and_true]
      omega
    · next hcond => exact absurd ⟨trivial, trivial, trivial⟩ hcond
  | case3 a b =>
    have ha : a < 256 := h a (by simp)
    have hb : b < 256 := h b (by simp)
    simp only [b64EncodeChars, b64DecodeChars,
      b64CharVal_alpha (a / 4) (by omega),
      b64CharVal_alpha ((a % 4) * 16 + b / 16) (by omega),
      b64CharVal_alpha ((b % 16) * 4) (by omega)]
    split
    · next hcond =>
        exact absurd hcond.1 (b64AlphaChar_ne_pad ((b % 16) * 4) (by omega))
    · split
      · simp only [Except.ok.injEq, List.cons.injEq, and_true]
        omega
      · next hcond => exact absurd ⟨trivial, trivial⟩ hcond
  | case4 a b c rest ih =>
    have ha : a < 256 := h a (by simp)
    have hb : b < 256 := h b (by simp)
    have hc : c < 256 := h c (by simp)
    have hrest : ∀ x ∈ rest, x < 256 := by
      intro x hx
      exact h x (by simp [hx])
    simp only [b64EncodeChars, b64DecodeChars,
      b64CharVal_alpha (a / 4) (by omega),
      b64CharVal_alpha ((a % 4) * 16 + b / 16) (by omega),
      b64CharVal_alpha ((b % 16) * 4 + c / 64) (by omega),
      b64CharVal_alpha (c % 64) (by omega)]
    split
    · next hcond =>
        exact absurd hcond.1
          (b64AlphaChar_ne_pad ((b % 16) * 4 + c / 64) (by omega))
    · split
      · next hcond =>
          exact absurd hcond.1 (b64AlphaChar_ne_pad (c % 64) (by omega))
      · rw [ih hrest]
        simp only [Except.ok.injEq, List.cons.injEq, and_true]
        omega

theorem utf8EncodeChar_lt (c : Char) : ∀ b ∈ utf8EncodeChar c, b < 256 := by
  have hv := char_toNat_valid c
  intro b hb
  by_cases h1 : c.toNat < 0x80
  · rw [show utf8EncodeChar c = [c.toNat] by unfold utf8EncodeChar; rw [if_pos h1]] at hb
    simp only [List.mem_singleton] at hb
    omega
  · by_cases h2 : c.toNat < 0x800
    · rw [show utf8EncodeChar c = [0xC0 + c.toNat / 64, 0x80 + c.toNat % 64] by
        unfold utf8EncodeChar; rw [if_neg h1, if_pos h2]] at hb
      simp only [List.mem_cons, List.not_mem_nil, or_false] at hb
      omega
    · by_cases h3 : c.toNat < 0x10000
      · rw [show utf8EncodeChar c = [0xE0 + c.toNat / 4096,
            0x80 + (c.toNat / 64) % 64, 0x80 + c.toNat % 64] by
          unfold utf8EncodeChar; rw [if_neg h1, if_neg h2, if_pos h3]] at hb
        simp only [List.mem_cons, List.not_mem_nil, or_false] at hb
        omega
      · rw [show utf8EncodeChar c = [0xF0 + c.toNat / 262144,
            0x80 + (c.toNat / 4096) % 64, 0x80 + (c.toNat / 64) % 64,
            0x80 + c.toNat % 64] by
          unfold utf8EncodeChar; rw [if_neg h1, if_neg h2, if_neg h3]] at hb
        simp only [List.mem_cons, List.not_mem_nil, or_false] at hb
        omega

theorem utf8Encode_lt (s : String) : ∀ b ∈ utf8Encode s, b < 256 := by
  intro b hb
  simp only [utf8Encode, List.mem_flatten, List.mem_map] at hb
  obtain ⟨l, ⟨c, hc, rfl⟩, hbl⟩ := hb
  exact utf8EncodeChar_lt c b hbl

theorem b64EncodeChars_ne_nil (x : ℕ) (r : List ℕ) :
    b64EncodeChars (x :: r) ≠ [] := by
  cases r with
  | nil => simp [b64EncodeChars]
  | cons y r2 =>
    cases r2 with
    | nil => simp [b64EncodeChars]
    | cons z r3 => simp [b64EncodeChars]

theorem utf8Encode_marshal (cur : paginationCursor) :
    utf8Encode (jsonMarshalCursor cur) =
      123 :: ((fieldsChars [("pk", cur.pk), ("sk", cur.sk),
        ("accountId", cur.accountId)]).map utf8EncodeChar).flatten := rfl

theorem encodeCursor_marshal_ne_empty (cur : paginationCursor) :
    String.mk (b64EncodeChars (utf8Encode (jsonMarshalCursor cur))) ≠ "" := by
  intro hcon
  have hd := congrArg String.data hcon
  rw [utf8Encode_marshal] at hd
  exact b64EncodeChars_ne_nil _ _ hd

/-- C7: pagination-cursor round-trip. `decodeCursor` inverts `encodeCursor`:
for every cursor value, encoding (JSON-marshal, then UTF-8 bytes, then
standard base64) and decoding (base64-decode, then JSON-unmarshal) returns
exactly the original cursor; a nil cursor encodes to nil, and a nil or empty
cursor string decodes to nil with no error. -/
theorem C7_cursor_roundtrip :
    (∀ cur : paginationCursor,
      DynamoDBRepository.decodeCursor
        (DynamoDBRepository.encodeCursor (some cur)) = .ok (some cur)) ∧
    DynamoDBRepository.encodeCursor none = none ∧
    DynamoDBRepository.decodeCursor none = .ok none ∧
    DynamoDBRepository.decodeCursor (some "") = .ok none := by
  refine ⟨?_, rfl, rfl, rfl⟩
  intro cur
  have hne := encodeCursor_marshal_ne_empty cur
  simp only [DynamoDBRepository.encodeCursor, DynamoDBRepository.decodeCursor,
    Option.map_some']
  rw [if_neg hne]
  simp only [b64_roundtrip (utf8Encode (jsonMarshalCursor cur))
      (utf8Encode_lt (jsonMarshalCursor cur)),
    utf8_decode_encode]
  rw [show (⟨(jsonMarshalCursor cur).data⟩ : String) = jsonMarshalCursor cur
    from rfl]
  simp only [parseCursorJson_marshal]

end LocationLambda
